import Mathlib

/-!
Verification of the RelatorioOregon core against its specification.

The development shallowly embeds the two core components:

* the Message-Driven Analytics Engine (`src/services/analyticsService.js`
  together with the SQL helpers of `src/db/database.js`), modelled as pure
  functions over an explicit relational `Store`; and
* the Connection Lifecycle Supervisor (`src/whatsapp/sessionManager.js`),
  modelled as a transition function on an explicit `SMState`.

Timestamps are modelled as integers (milliseconds since the epoch, the
instant denoted by the ISO strings the code passes around).  JavaScript
floating-point arithmetic on these quantities is exact for the magnitudes
involved, so rational arithmetic (`ℚ`) is used wherever the source divides.
-/

namespace RelatorioOregon

/-! ## Data model (tables of `src/db/database.js`) -/

/-- Row of the `contacts` table. -/
structure Contact where
  id : Nat
  instanceId : String
  phone : String
  name : Option String
  firstMessageAt : Option Int
  lastMessageAt : Option Int
  totalMessagesReceived : Nat
  totalMessagesSent : Nat
  returnCount : Nat
deriving Repr, DecidableEq

/-- Row of the `messages` table.  The `message_id` column is declared
nullable in the schema, hence `Option String` here. -/
structure MessageRow where
  instanceId : String
  contactId : Nat
  messageId : Option String
  fromMe : Bool
  body : String
  mediaType : String
  timestamp : Int
deriving Repr, DecidableEq

/-- Row of the `daily_metrics` table (the additive counters). -/
structure DailyMetricRow where
  instanceId : String
  date : Int
  newContacts : Nat
  totalMessagesReceived : Nat
  totalMessagesSent : Nat
  returningContacts : Nat
deriving Repr, DecidableEq

/-- The relational store visible to the Analytics Engine.  `nextContactId`
models the AUTOINCREMENT primary key of `contacts`. -/
structure Store where
  contacts : List Contact
  messages : List MessageRow
  dailyMetrics : List DailyMetricRow
  nextContactId : Nat
deriving Repr, DecidableEq

def emptyStore : Store := { contacts := [], messages := [], dailyMetrics := [], nextContactId := 1 }

/-- Key predicate of the `UNIQUE(instance_id, phone)` constraint. -/
def contactKeyB (inst phone : String) (c : Contact) : Bool :=
  c.instanceId == inst && c.phone == phone

/-- Query `contactQueries.findByPhone`:
`SELECT * FROM contacts WHERE instance_id = ? AND phone = ?`. -/
def findByPhone (st : Store) (inst phone : String) : Option Contact :=
  st.contacts.find? (contactKeyB inst phone)

/-- SQL COALESCE on two nullable strings. -/
def coalesceStr (a b : Option String) : Option String :=
  match a with
  | some x => some x
  | none => b

/-- The `ON CONFLICT(instance_id, phone) DO UPDATE` clause of
`contactQueries.upsert`: `name = COALESCE(excluded.name, name),
last_message_at = excluded.last_message_at`. -/
def applyContactUpdate (name : Option String) (last : Option Int) (c : Contact) : Contact :=
  { c with name := coalesceStr name c.name, lastMessageAt := last }

/-- The per-row effect of the conflict branch of `contactQueries.upsert`:
only the conflicting row is updated. -/
def updContact (inst phone : String) (name : Option String) (last : Option Int)
    (d : Contact) : Contact :=
  if contactKeyB inst phone d then applyContactUpdate name last d else d

/-- The row inserted by the no-conflict branch of `contactQueries.upsert`
(fresh AUTOINCREMENT id, zero-initialised counters). -/
def freshContact (st : Store) (inst phone : String) (name : Option String)
    (first last : Option Int) : Contact :=
  { id := st.nextContactId, instanceId := inst, phone := phone, name := name,
    firstMessageAt := first, lastMessageAt := last,
    totalMessagesReceived := 0, totalMessagesSent := 0, returnCount := 0 }

/-- Query `contactQueries.upsert ... RETURNING *`: insert a fresh row, or on
conflict update the existing row, returning the resulting row. -/
def contactUpsert (st : Store) (inst phone : String) (name : Option String)
    (first last : Option Int) : Contact × Store :=
  match st.contacts.find? (contactKeyB inst phone) with
  | some c₀ =>
      (applyContactUpdate name last c₀,
        { st with contacts := st.contacts.map (updContact inst phone name last) })
  | none =>
      let c := freshContact st inst phone name first last
      (c, { st with contacts := st.contacts ++ [c], nextContactId := st.nextContactId + 1 })

/-- The per-row effect of `contactQueries.incrementReturnCount`. -/
def bumpReturn (cid : Nat) (c : Contact) : Contact :=
  if c.id == cid then { c with returnCount := c.returnCount + 1 } else c

/-- Query `contactQueries.incrementReturnCount`:
`UPDATE contacts SET return_count = return_count + 1 WHERE id = ?`. -/
def incrementReturnCount (st : Store) (cid : Nat) : Store :=
  { st with contacts := st.contacts.map (bumpReturn cid) }

/-- The per-row effect of `contactQueries.incrementSent`. -/
def bumpSent (cid : Nat) (c : Contact) : Contact :=
  if c.id == cid then { c with totalMessagesSent := c.totalMessagesSent + 1 } else c

/-- Query `contactQueries.incrementSent`. -/
def incrementSent (st : Store) (cid : Nat) : Store :=
  { st with contacts := st.contacts.map (bumpSent cid) }

/-- The per-row effect of `contactQueries.incrementReceived`. -/
def bumpReceived (cid : Nat) (c : Contact) : Contact :=
  if c.id == cid then { c with totalMessagesReceived := c.totalMessagesReceived + 1 } else c

/-- Query `contactQueries.incrementReceived`. -/
def incrementReceived (st : Store) (cid : Nat) : Store :=
  { st with contacts := st.contacts.map (bumpReceived cid) }

/-- Query `messageQueries.create`: plain INSERT into `messages`. -/
def messageCreate (st : Store) (row : MessageRow) : Store :=
  { st with messages := st.messages ++ [row] }

/-- Key predicate of the `UNIQUE(instance_id, date)` constraint of
`daily_metrics`. -/
def dailyKeyB (inst : String) (date : Int) (r : DailyMetricRow) : Bool :=
  r.instanceId == inst && r.date == date

/-- The `ON CONFLICT(instance_id, date) DO UPDATE` clause of
`metricsQueries.upsertDaily`: every counter is incremented by the excluded
row's value, never overwritten. -/
def addDaily (r delta : DailyMetricRow) : DailyMetricRow :=
  { r with
    newContacts := r.newContacts + delta.newContacts,
    totalMessagesReceived := r.totalMessagesReceived + delta.totalMessagesReceived,
    totalMessagesSent := r.totalMessagesSent + delta.totalMessagesSent,
    returningContacts := r.returningContacts + delta.returningContacts }

/-- Query `metricsQueries.upsertDaily` at the list level. -/
def upsertDailyRows (rows : List DailyMetricRow) (delta : DailyMetricRow) : List DailyMetricRow :=
  if rows.any (dailyKeyB delta.instanceId delta.date) then
    rows.map (fun r => if dailyKeyB delta.instanceId delta.date r then addDaily r delta else r)
  else
    rows ++ [delta]

/-- Query `metricsQueries.upsertDaily` on the store. -/
def upsertDaily (st : Store) (delta : DailyMetricRow) : Store :=
  { st with dailyMetrics := upsertDailyRows st.dailyMetrics delta }

/-! ## Analytics ingestion (`analyticsService.processMessage`) -/

/-- Input of `processMessage`: the destructured `messageData` argument. -/
structure MessageData where
  fromMe : Bool
  body : String
  timestamp : Int
  contactName : Option String
  mediaType : String
  messageId : Option String
deriving Repr, DecidableEq

/-- The calendar date `new Date(timestamp).toISOString().split('T')[0]`
extracted from a millisecond timestamp, represented as the (UTC) epoch-day
number; this is a bijective encoding of the date string. -/
def dateStrOf (ts : Int) : Int := Int.fdiv ts 86400000

/-- The source expression
`(currentMsgTime - lastMsgTime) / (1000 * 60 * 60)` (hours). -/
def hoursSinceLastMsg (lastMsgTime currentMsgTime : Int) : ℚ :=
  ((currentMsgTime - lastMsgTime : Int) : ℚ) / (1000 * 60 * 60)

/-- The `hoursSinceLastMsg >= 24` test of `processMessage`.  (JavaScript
performs this in binary floating point, which is exact for millisecond
integer timestamps of realistic magnitude, so the rational test is the
faithful model.) -/
def returnGapB (lastMsgTime currentMsgTime : Int) : Bool :=
  decide ((24 : ℚ) ≤ hoursSinceLastMsg lastMsgTime currentMsgTime)

/-- JavaScript fallback `messageId || msg_Date.now()`: a falsy (absent or
empty) network message id is replaced by a generated placeholder. -/
def effectiveMessageId (messageId : Option String) (sysNow : Int) : String :=
  match messageId with
  | some s => if s.isEmpty then "msg_" ++ toString sysNow else s
  | none => "msg_" ++ toString sysNow

/-- Return value of `processMessage`. -/
structure IngestResult where
  contact : Contact
  isNewContact : Bool
  isReturningContact : Bool
deriving Repr, DecidableEq

/-- `analyticsService.processMessage(instanceId, phone, messageData)`.
`sysNow` models the wall clock `Date.now()` read when generating a
placeholder message id. -/
def processMessage (st : Store) (instanceId phone : String) (d : MessageData) (sysNow : Int) :
    IngestResult × Store :=
  let dateStr := dateStrOf d.timestamp
  let nameToUse := if d.fromMe then none else d.contactName
  let step1 : Contact × Bool × Bool × Store :=
    match findByPhone st instanceId phone with
    | none =>
        let r := contactUpsert st instanceId phone nameToUse (some d.timestamp) (some d.timestamp)
        (r.1, true, false, r.2)
    | some contact₀ =>
        let isRet := !d.fromMe &&
          (match contact₀.lastMessageAt with
           | some l => returnGapB l d.timestamp
           | none => false)
        let st' := if isRet then incrementReturnCount st contact₀.id else st
        let r := contactUpsert st' instanceId phone nameToUse none (some d.timestamp)
        let c := (findByPhone r.2 instanceId phone).getD contact₀
        (c, false, isRet, r.2)
  let contact := step1.1
  let isNewContact := step1.2.1
  let isReturningContact := step1.2.2.1
  let st₁ := step1.2.2.2
  let st₂ := messageCreate st₁
    { instanceId := instanceId, contactId := contact.id,
      messageId := some (effectiveMessageId d.messageId sysNow),
      fromMe := d.fromMe, body := d.body, mediaType := d.mediaType, timestamp := d.timestamp }
  let st₃ := if d.fromMe then incrementSent st₂ contact.id else incrementReceived st₂ contact.id
  let st₄ := upsertDaily st₃
    { instanceId := instanceId, date := dateStr,
      newContacts := if isNewContact then 1 else 0,
      totalMessagesReceived := if d.fromMe then 0 else 1,
      totalMessagesSent := if d.fromMe then 1 else 0,
      returningContacts := if isReturningContact then 1 else 0 }
  ({ contact := contact, isNewContact := isNewContact, isReturningContact := isReturningContact }, st₄)

/-- One ingestion request handed to the Analytics Engine by the Supervisor. -/
structure IngestInput where
  instanceId : String
  phone : String
  data : MessageData
  sysNow : Int
deriving Repr, DecidableEq

/-- Sequential ingestion of a batch (messages are processed strictly in
order, each fully ingested before the next). -/
def ingestAll (msgs : List IngestInput) (st : Store) : Store :=
  msgs.foldl (fun s m => (processMessage s m.instanceId m.phone m.data m.sysNow).2) st

/-! ## Observation helpers -/

def getContact (st : Store) (inst phone : String) : Option Contact :=
  findByPhone st inst phone

/-- The stored return-count of the contact at a key (0 when absent). -/
def returnCountOf (st : Store) (inst phone : String) : Nat :=
  match getContact st inst phone with
  | some c => c.returnCount
  | none => 0

/-- The stored display name of the contact at a key (none when absent or
unset; the two are indistinguishable to a NULL name column). -/
def nameOf (st : Store) (inst phone : String) : Option String :=
  (getContact st inst phone).bind Contact.name

/-- The condition under which the code increments `return_count` for an
ingested message: inbound, on an already-known contact with a stored
last-seen timestamp, with at least a 24-hour gap. -/
def returnIncrementCondition (st : Store) (inst phone : String) (d : MessageData) : Bool :=
  match getContact st inst phone with
  | none => false
  | some c =>
      !d.fromMe &&
        (match c.lastMessageAt with
         | some l => returnGapB l d.timestamp
         | none => false)

/-! ## Response-time computation (`calculateResponseTimes` and helpers) -/

/-- Minimum of a list of values, `none` on the empty list (SQL MIN / the
spread `Math.min`). -/
def listMin {α : Type} [Min α] : List α → Option α
  | [] => none
  | x :: xs =>
      match listMin xs with
      | none => some x
      | some y => some (min x y)

/-- Maximum of a list of values, `none` on the empty list. -/
def listMax {α : Type} [Max α] : List α → Option α
  | [] => none
  | x :: xs =>
      match listMax xs with
      | none => some x
      | some y => some (max x y)

/-- The correlated subquery of `calculateResponseTimes`:
`SELECT MIN(m2.timestamp) FROM messages m2 WHERE m2.contact_id = ? AND
m2.from_me = 1 AND m2.timestamp > ?`. -/
def respondedAt (msgs : List MessageRow) (contactId : Nat) (ts : Int) : Option Int :=
  listMin ((msgs.filter (fun m => m.contactId == contactId && m.fromMe && decide (ts < m.timestamp))).map
    MessageRow.timestamp)

/-- The outer rows of the `calculateResponseTimes` query: inbound messages
of the instance whose calendar date lies in the requested range.  (The SQL
`ORDER BY m1.timestamp ASC` only fixes row order, which all the reported
aggregates are invariant under, so the filter order is kept.) -/
def inboundInRange (msgs : List MessageRow) (inst : String) (startDate endDate : Int) :
    List MessageRow :=
  msgs.filter (fun m => m.instanceId == inst && !m.fromMe &&
    decide (startDate ≤ dateStrOf m.timestamp) && decide (dateStrOf m.timestamp ≤ endDate))

/-- Row shape returned by the `calculateResponseTimes` query. -/
structure ResponseQueryRow where
  contactId : Nat
  receivedAt : Int
  respondedAt : Option Int
deriving Repr, DecidableEq

/-- The full result set of the `calculateResponseTimes` query over the
message table. -/
def responseQueryRows (msgs : List MessageRow) (inst : String) (s e : Int) :
    List ResponseQueryRow :=
  (inboundInRange msgs inst s e).map
    (fun m => { contactId := m.contactId, receivedAt := m.timestamp,
                respondedAt := respondedAt msgs m.contactId m.timestamp })

/-- The JS post-processing over the query rows: keep answered rows and map
each to `(responded - received) / 1000` seconds. -/
def samplesOfRows (rows : List ResponseQueryRow) : List ℚ :=
  rows.filterMap (fun r => r.respondedAt.map (fun t => ((t - r.receivedAt : Int) : ℚ) / 1000))

/-- Row shape returned by the `getFirstResponseTimes` query. -/
structure FirstResponseRow where
  contactId : Nat
  firstMessageAt : Int
  firstResponseAt : Option Int
deriving Repr, DecidableEq

/-- The `getFirstResponseTimes` query: contacts of the instance whose first
message falls in the range, each with the earliest outbound message of that
contact (not bounded to the range).  A NULL `first_message_at` fails both
SQL date comparisons and is filtered out. -/
def firstResponseRowsOf (contacts : List Contact) (msgs : List MessageRow) (inst : String)
    (s e : Int) : List FirstResponseRow :=
  contacts.filterMap (fun c =>
    match c.firstMessageAt with
    | none => none
    | some f =>
        if c.instanceId == inst && decide (s ≤ dateStrOf f) && decide (dateStrOf f ≤ e) then
          some { contactId := c.id, firstMessageAt := f,
                 firstResponseAt :=
                   listMin ((msgs.filter (fun m => m.contactId == c.id && m.fromMe)).map
                     MessageRow.timestamp) }
        else none)

/-- The JS post-processing of `getFirstResponseTimes`. -/
def firstTimesOfRows (rows : List FirstResponseRow) : List ℚ :=
  rows.filterMap (fun r => r.firstResponseAt.map (fun t => ((t - r.firstMessageAt : Int) : ℚ) / 1000))

/-- JavaScript `Math.round` on an exact rational: round half away from
zero is `Math.round`'s half-up behaviour for the nonnegative values that
arise here; `⌊q + 1/2⌋` is `Math.round` for every value. -/
def jsRound (q : ℚ) : Int := ⌊q + 1 / 2⌋

/-- Return shape of `calculateResponseTimes`. -/
structure ResponseTimesResult where
  avgResponseTimeSeconds : Int
  minResponseTimeSeconds : Int
  maxResponseTimeSeconds : Int
  firstResponseTimeSeconds : Int
  totalResponses : Nat
deriving Repr, DecidableEq

def zeroResponseTimes : ResponseTimesResult :=
  { avgResponseTimeSeconds := 0, minResponseTimeSeconds := 0, maxResponseTimeSeconds := 0,
    firstResponseTimeSeconds := 0, totalResponses := 0 }

/-- The body of `calculateResponseTimes` after its two queries returned
(`rows`) and with the first-response sample list already computed by
`getFirstResponseTimes` (`firsts`; that helper absorbs its own failures). -/
def calculateResponseTimesWith (rows : List ResponseQueryRow) (firsts : List ℚ) :
    ResponseTimesResult :=
  let responseTimes := samplesOfRows rows
  if responseTimes.length = 0 then zeroResponseTimes
  else
    let avgFirstResponse : ℚ :=
      if 0 < firsts.length then firsts.sum / (firsts.length : ℚ) else 0
    { avgResponseTimeSeconds := jsRound (responseTimes.sum / (responseTimes.length : ℚ)),
      minResponseTimeSeconds := jsRound ((listMin responseTimes).getD 0),
      maxResponseTimeSeconds := jsRound ((listMax responseTimes).getD 0),
      firstResponseTimeSeconds := jsRound avgFirstResponse,
      totalResponses := responseTimes.length }

/-- `analyticsService.calculateResponseTimes` over given table contents
(successful read path). -/
def calculateResponseTimes (contacts : List Contact) (msgs : List MessageRow) (inst : String)
    (s e : Int) : ResponseTimesResult :=
  calculateResponseTimesWith (responseQueryRows msgs inst s e)
    (firstTimesOfRows (firstResponseRowsOf contacts msgs inst s e))

/-! ## Dashboard read path with fallible store reads (`getDashboardMetrics`)

Each prepared query the read path runs is modelled as an `Except`-valued
result, so a store failure on any individual read can be represented.  The
service functions below mirror the try/catch structure of
`analyticsService.js` exactly: which handlers swallow a failure (returning
a default) and which propagate it. -/

/-- Row of the `contactQueries.getActiveContacts` query (contact columns
plus the two counted columns). -/
structure ActiveContactRow where
  id : Nat
  phone : String
  name : Option String
  firstMessageAt : Option Int
  lastMessageAt : Option Int
  totalMessagesSent : Nat
  totalMessagesReceived : Nat
  isLead : Bool
  sent : Nat
  received : Nat
deriving Repr, DecidableEq

/-- View object produced by `getActiveContacts` (note the JS `||` fallback:
a zero counted value falls back to the stored cumulative counter). -/
structure ActiveContactView where
  id : Nat
  phone : String
  name : Option String
  firstMessageAt : Option Int
  lastMessageAt : Option Int
  messagesSent : Nat
  messagesReceived : Nat
  isLead : Bool
deriving Repr, DecidableEq

/-- `analyticsService.getActiveContacts`: maps the query rows, and returns
the empty list when the store read failed (its catch handler). -/
def getActiveContacts (q : Except String (List ActiveContactRow)) : List ActiveContactView :=
  match q with
  | Except.error _ => []
  | Except.ok rows =>
      rows.map (fun c =>
        { id := c.id, phone := c.phone, name := c.name,
          firstMessageAt := c.firstMessageAt, lastMessageAt := c.lastMessageAt,
          messagesSent := if c.sent ≠ 0 then c.sent else c.totalMessagesSent,
          messagesReceived := if c.received ≠ 0 then c.received else c.totalMessagesReceived,
          isLead := c.isLead })

/-- Row of the `getPendingContacts` query (contact columns plus the
direction of the last message, NULL when the contact has no message). -/
structure PendingContactRow where
  id : Nat
  phone : String
  totalMessagesSent : Nat
  lastFromMe : Option Bool
deriving Repr, DecidableEq

/-- `analyticsService.getPendingContacts`: keeps rows whose last message
was outbound; empty list when the store read failed. -/
def getPendingContacts (q : Except String (List PendingContactRow)) : List PendingContactRow :=
  match q with
  | Except.error _ => []
  | Except.ok rows => rows.filter (fun c => c.lastFromMe == some true)

/-- `analyticsService.getFirstResponseTimes` with a fallible query: its own
catch handler turns a failure into the empty sample list. -/
def getFirstResponseTimesSafe (q : Except String (List FirstResponseRow)) : List ℚ :=
  match q with
  | Except.error _ => []
  | Except.ok rows => firstTimesOfRows rows

/-- `analyticsService.calculateResponseTimes` with fallible queries: a
failure of its own query is caught and turned into the all-zero result,
while a failure of the nested `getFirstResponseTimes` query is absorbed by
that helper. -/
def calculateResponseTimesSafe (respQ : Except String (List ResponseQueryRow))
    (firstQ : Except String (List FirstResponseRow)) : ResponseTimesResult :=
  match respQ with
  | Except.error _ => zeroResponseTimes
  | Except.ok rows => calculateResponseTimesWith rows (getFirstResponseTimesSafe firstQ)

/-- Row of `messageQueries.countByDateRange`. -/
structure CountByDayRow where
  date : Int
  received : Nat
  sent : Nat
deriving Repr, DecidableEq

/-- The aggregated totals of the dashboard. -/
structure DashboardTotals where
  newContacts : Nat
  messagesReceived : Nat
  messagesSent : Nat
  returningContacts : Nat
deriving Repr, DecidableEq

/-- The structured snapshot returned by `getDashboardMetrics`. -/
structure DashboardMetrics where
  totals : DashboardTotals
  pendingContacts : Nat
  activeContacts : Nat
  responseTimes : ResponseTimesResult
  contactsByDay : List CountByDayRow
  dailyBreakdown : List DailyMetricRow
deriving Repr, DecidableEq

/-- The prepared-query results the dashboard read path consumes, each
individually fallible. -/
structure ReadDb where
  dailyMetricsInRange : Except String (List DailyMetricRow)
  activeContactRows : Except String (List ActiveContactRow)
  pendingRows : Except String (List PendingContactRow)
  responseRows : Except String (List ResponseQueryRow)
  firstResponseRows : Except String (List FirstResponseRow)
  countByDay : Except String (List CountByDayRow)

/-- `analyticsService.getDashboardMetrics`: the two queries it runs
directly (`metricsQueries.getByDateRange`, `messageQueries.countByDateRange`)
are inside its own try block, whose catch handler logs and rethrows, so
their failures propagate to the caller; the helper calls absorb their own
failures. -/
def getDashboardMetrics (db : ReadDb) : Except String DashboardMetrics := do
  let dailyMetrics ← db.dailyMetricsInRange
  let totals := dailyMetrics.foldl
    (fun acc day =>
      { newContacts := acc.newContacts + day.newContacts,
        messagesReceived := acc.messagesReceived + day.totalMessagesReceived,
        messagesSent := acc.messagesSent + day.totalMessagesSent,
        returningContacts := acc.returningContacts + day.returningContacts })
    { newContacts := 0, messagesReceived := 0, messagesSent := 0, returningContacts := 0 }
  let activeContacts := getActiveContacts db.activeContactRows
  let pendingContacts := getPendingContacts db.pendingRows
  let responseTimes := calculateResponseTimesSafe db.responseRows db.firstResponseRows
  let contactsByDay ← db.countByDay
  pure { totals := totals, pendingContacts := pendingContacts.length,
         activeContacts := activeContacts.length, responseTimes := responseTimes,
         contactsByDay := contactsByDay, dailyBreakdown := dailyMetrics }

/-! ## Connection Lifecycle Supervisor (`src/whatsapp/sessionManager.js`) -/

/-- Lifecycle notifications emitted to registered connection callbacks. -/
inductive SMNotification where
  | qr (sessionId qrCode : String) (attempt maxAttempts : Nat)
  | qrLoop (sessionId : String)
  | close (sessionId : String) (shouldReconnect : Bool) (statusCode : Option Nat)
deriving Repr, DecidableEq

/-- Association-list removal by key. -/
def aerase {β : Type} (l : List (String × β)) (k : String) : List (String × β) :=
  l.filter (fun p => p.1 != k)

/-- Association-list lookup by key (JS Map.get). -/
def alookup {β : Type} (l : List (String × β)) (k : String) : Option β :=
  (l.find? (fun p => p.1 == k)).map Prod.snd

/-- Association-list update by key (JS Map.set). -/
def aset {β : Type} (l : List (String × β)) (k : String) (v : β) : List (String × β) :=
  (k, v) :: aerase l k

/-- JS Set.add on a list-modelled set. -/
def sadd (l : List String) (k : String) : List String :=
  if l.contains k then l else k :: l

/-- Per-session QR window state (`this.qrCodeState` entries). -/
structure QrState where
  count : Nat
  firstAt : Int
deriving Repr, DecidableEq

/-- The mutable state of the `SessionManager` instance, together with the
per-session credential rows of the `auth_state` table (pairs of session id
and data key; `clearAuthState` deletes all rows of a session). -/
structure SMState where
  sessions : List String
  reconnectState : List (String × Nat)
  reconnectTimers : List (String × ℚ)
  qrCodeState : List (String × QrState)
  qrLoopPaused : List String
  authState : List (String × String)
deriving Repr, DecidableEq

/-- The fixed QR threshold `MAX_QR`. -/
def MAX_QR : Nat := 5

/-- The 10-minute QR window in milliseconds. -/
def QR_WINDOW_MS : Int := 10 * 60 * 1000

/-- `sessionManager.handleQRCode(sessionId, qr, sock)` at wall-clock `now`.
Closing the adapter socket and deleting the session from the in-memory map
are modelled by removing the session id from `sessions`. -/
def handleQRCode (st : SMState) (sessionId qrCode : String) (now : Int) :
    SMState × List SMNotification :=
  let qs0 := (alookup st.qrCodeState sessionId).getD { count := 0, firstAt := now }
  let qs1 := if QR_WINDOW_MS < now - qs0.firstAt then { count := 0, firstAt := now } else qs0
  let qs2 : QrState := { count := qs1.count + 1, firstAt := qs1.firstAt }
  let st := { st with qrCodeState := aset st.qrCodeState sessionId qs2 }
  if MAX_QR < qs2.count then
    ({ st with
        qrLoopPaused := sadd st.qrLoopPaused sessionId,
        reconnectTimers := aerase st.reconnectTimers sessionId,
        sessions := st.sessions.filter (fun s => s != sessionId) },
      [SMNotification.qrLoop sessionId])
  else
    (st, [SMNotification.qr sessionId qrCode qs2.count MAX_QR])

/-- Baileys `DisconnectReason.loggedOut` (the external adapter's constant). -/
def loggedOutCode : Nat := 401

/-- The `noReconnectCodes` array of `handleDisconnect`. -/
def noReconnectCodes : List Nat := [loggedOutCode, 403, 401]

/-- The reconnect backoff of `handleDisconnect`:
`Math.min(60000, 5000 * Math.pow(1.5, attempts - 1))` (exact in binary
floating point for attempts ≤ 10, hence the rational model). -/
def reconnectDelay (attempts : Nat) : ℚ :=
  min 60000 (5000 * (3 / 2) ^ (attempts - 1))

/-- The `shouldReconnect` computation of `handleDisconnect`: false when the
session is paused by QR loop, otherwise the status code must not be one of
the no-reconnect codes (`Array.includes(undefined)` is false, so an absent
status code reconnects). -/
def shouldReconnectB (st : SMState) (sessionId : String) (statusCode : Option Nat) : Bool :=
  if st.qrLoopPaused.contains sessionId then false
  else !(match statusCode with
         | some c => noReconnectCodes.contains c
         | none => false)

/-- `sessionManager.handleDisconnect(sessionId, lastDisconnect)`;
`statusCode` is `lastDisconnect?.error?.output?.statusCode` (absent when
the chain is undefined). -/
def handleDisconnect (st : SMState) (sessionId : String) (statusCode : Option Nat) :
    SMState × List SMNotification :=
  let pausedByQrLoop := st.qrLoopPaused.contains sessionId
  let shouldReconnect := shouldReconnectB st sessionId statusCode
  let notif := [SMNotification.close sessionId shouldReconnect statusCode]
  if shouldReconnect then
    let attempts := (alookup st.reconnectState sessionId).getD 0 + 1
    let st := { st with reconnectState := aset st.reconnectState sessionId attempts }
    if attempts ≤ 10 then
      ({ st with reconnectTimers := aset st.reconnectTimers sessionId (reconnectDelay attempts) },
        notif)
    else
      (st, notif)
  else
    let st := { st with sessions := st.sessions.filter (fun s => s != sessionId) }
    if pausedByQrLoop then (st, notif)
    else ({ st with authState := st.authState.filter (fun p => p.1 != sessionId) }, notif)

/-- Claim C2 — helper: the counter value after a qr event, as described by
the spec (previous window count, reset when more than ten minutes have
elapsed since the window started, then incremented). -/
def qrPrev (st : SMState) (sessionId : String) (now : Int) : QrState :=
  (alookup st.qrCodeState sessionId).getD { count := 0, firstAt := now }

def qrNewCount (st : SMState) (sessionId : String) (now : Int) : Nat :=
  (if QR_WINDOW_MS < now - (qrPrev st sessionId now).firstAt then 0
   else (qrPrev st sessionId now).count) + 1

def qrNewFirstAt (st : SMState) (sessionId : String) (now : Int) : Int :=
  if QR_WINDOW_MS < now - (qrPrev st sessionId now).firstAt then now
  else (qrPrev st sessionId now).firstAt

/-- A supervisor state with four failed reconnect attempts recorded for
session "s" and nothing else pending. -/
def smC3 : SMState :=
  { sessions := ["s"], reconnectState := [("s", 4)], reconnectTimers := [],
    qrCodeState := [], qrLoopPaused := [], authState := [] }

/-- A supervisor state whose session "s" is paused by QR loop and has one
stored credential row. -/
def smC6 : SMState :=
  { sessions := ["s"], reconnectState := [], reconnectTimers := [],
    qrCodeState := [], qrLoopPaused := ["s"], authState := [("s", "creds")] }

/-- A query environment whose daily-metrics range read fails and whose
other reads succeed. -/
def failingMetricsDb : ReadDb :=
  { dailyMetricsInRange := Except.error "db down",
    activeContactRows := Except.ok [], pendingRows := Except.ok [],
    responseRows := Except.ok [], firstResponseRows := Except.ok [],
    countByDay := Except.ok [] }

/-- A query environment whose per-day count read fails and whose other
reads succeed. -/
def failingCountDb : ReadDb :=
  { dailyMetricsInRange := Except.ok [], activeContactRows := Except.ok [],
    pendingRows := Except.ok [], responseRows := Except.ok [],
    firstResponseRows := Except.ok [], countByDay := Except.error "count failed" }

/-! ## Store invariants and derived observations -/

/-- The `UNIQUE(instance_id, phone)` uniqueness property on the contact
table: no two rows share a key. -/
def KeysUnique (st : Store) : Prop :=
  st.contacts.Pairwise (fun a b => ¬(a.instanceId = b.instanceId ∧ a.phone = b.phone))

/-- Well-formedness of the contact table as maintained by the store: keys
are unique, primary keys are unique, and every primary key is below the
AUTOINCREMENT counter. -/
def StoreInv (st : Store) : Prop :=
  KeysUnique st ∧ (st.contacts.map Contact.id).Nodup
    ∧ ∀ c ∈ st.contacts, c.id < st.nextContactId

/-- The four additive per-day counters, as an abstract value. -/
structure DailyCounts where
  newContacts : Nat
  messagesReceived : Nat
  messagesSent : Nat
  returningContacts : Nat
deriving Repr, DecidableEq

def DailyCounts.add (a b : DailyCounts) : DailyCounts :=
  { newContacts := a.newContacts + b.newContacts,
    messagesReceived := a.messagesReceived + b.messagesReceived,
    messagesSent := a.messagesSent + b.messagesSent,
    returningContacts := a.returningContacts + b.returningContacts }

def zeroDailyCounts : DailyCounts :=
  { newContacts := 0, messagesReceived := 0, messagesSent := 0, returningContacts := 0 }

def countsOfRow (r : DailyMetricRow) : DailyCounts :=
  { newContacts := r.newContacts, messagesReceived := r.totalMessagesReceived,
    messagesSent := r.totalMessagesSent, returningContacts := r.returningContacts }

/-- The stored counters of the Daily Metric row at a key (all zero when the
row is absent). -/
def getDailyCounts (st : Store) (inst : String) (date : Int) : DailyCounts :=
  match st.dailyMetrics.find? (dailyKeyB inst date) with
  | some r => countsOfRow r
  | none => zeroDailyCounts

/-- The additive delta `processMessage` hands to `upsertDaily` for one
ingested message: +1 new contact when the contact was created, +1
received/sent by direction, +1 returning contact when returning. -/
def deltaOf (st : Store) (m : IngestInput) : DailyCounts :=
  { newContacts := if (processMessage st m.instanceId m.phone m.data m.sysNow).1.isNewContact then 1 else 0,
    messagesReceived := if m.data.fromMe then 0 else 1,
    messagesSent := if m.data.fromMe then 1 else 0,
    returningContacts := if (processMessage st m.instanceId m.phone m.data m.sysNow).1.isReturningContact then 1 else 0 }

/-- The per-message deltas of a sequence of ingests, tagged with the
instance and calendar date they are booked under. -/
def deltaTrace (msgs : List IngestInput) (st : Store) : List (String × Int × DailyCounts) :=
  match msgs with
  | [] => []
  | m :: rest =>
      (m.instanceId, dateStrOf m.data.timestamp, deltaOf st m)
        :: deltaTrace rest (processMessage st m.instanceId m.phone m.data m.sysNow).2

/-- The sum of the traced deltas booked under one (instance, date) key. -/
def sumDeltasFor (inst : String) (date : Int) : List (String × Int × DailyCounts) → DailyCounts
  | [] => zeroDailyCounts
  | e :: tr =>
      if e.1 = inst ∧ e.2.1 = date then (e.2.2).add (sumDeltasFor inst date tr)
      else sumDeltasFor inst date tr

/-- Specification predicate for C4: `r` is the timestamp of the earliest
outbound message of the contact strictly later than `ts`. -/
def IsEarliestReplyAt (msgs : List MessageRow) (contactId : Nat) (ts r : Int) : Prop :=
  (∃ m ∈ msgs, m.contactId = contactId ∧ m.fromMe = true ∧ ts < m.timestamp ∧ m.timestamp = r)
    ∧ ∀ m ∈ msgs, m.contactId = contactId → m.fromMe = true → ts < m.timestamp → r ≤ m.timestamp

/-- A two-message table used to exercise the response-time computation on
concrete data: one inbound message at t=0 answered by one outbound message
at t=30000 ms for the same contact. -/
def msgsC4 : List MessageRow :=
  [{ instanceId := "i", contactId := 1, messageId := some "a", fromMe := false,
     body := "hi", mediaType := "text", timestamp := 0 },
   { instanceId := "i", contactId := 1, messageId := some "b", fromMe := true,
     body := "hello", mediaType := "text", timestamp := 30000 }]

/-! ## Helper lemmas on the association-list and set primitives -/

theorem alookup_aset_self {β : Type} (l : List (String × β)) (k : String) (v : β) :
    alookup (aset l k v) k = some v := by
  simp [alookup, aset, List.find?]

theorem alookup_aerase_self {β : Type} (l : List (String × β)) (k : String) :
    alookup (aerase l k) k = none := by
  induction l with
  | nil => rfl
  | cons hd tl ih =>
      by_cases h : hd.1 = k
      · simp [aerase, alookup, List.filter_cons, h] at ih ⊢
      · simp [aerase, alookup, List.filter_cons, List.find?, bne, h] at ih ⊢

theorem contains_filter_ne (l : List String) (k : String) :
    (l.filter (fun s => s != k)).contains k = false := by
  induction l with
  | nil => rfl
  | cons hd tl ih =>
      by_cases h : hd = k
      · simp [List.filter_cons, h] at ih ⊢
      · simp [List.filter_cons, bne, h, List.contains_cons, Ne.symm h] at ih ⊢

theorem contains_sadd_self (l : List String) (k : String) :
    (sadd l k).contains k = true := by
  by_cases h : k ∈ l <;> simp [sadd, h]

theorem mem_sadd_self (l : List String) (k : String) : k ∈ sadd l k := by
  by_cases h : k ∈ l <;> simp [sadd, h]


/-- C2: each qr event increments the per-session counter, resetting it when
more than 10 minutes have elapsed since the window started; while the new
count is at most `MAX_QR` (5) a qr notification carrying the raw code and
(attempt, max) is emitted and the session is untouched; on the event that
makes the count exceed 5 the session is paused (QR loop): it is removed
from the session map (socket closed), its pending reconnect timer is
cancelled, a qr-loop notification is emitted, stored credentials are kept,
and any subsequent close while paused schedules no reconnect and keeps the
credentials. -/
theorem qr_window_policy (st : SMState) (sessionId qrCode : String) (now : Int) :
    alookup ((handleQRCode st sessionId qrCode now).1).qrCodeState sessionId
        = some { count := qrNewCount st sessionId now, firstAt := qrNewFirstAt st sessionId now }
      ∧ ((handleQRCode st sessionId qrCode now).1).authState = st.authState
      ∧ (if qrNewCount st sessionId now ≤ MAX_QR then
            (handleQRCode st sessionId qrCode now).2
                = [SMNotification.qr sessionId qrCode (qrNewCount st sessionId now) MAX_QR]
              ∧ ((handleQRCode st sessionId qrCode now).1).sessions = st.sessions
              ∧ ((handleQRCode st sessionId qrCode now).1).qrLoopPaused = st.qrLoopPaused
              ∧ ((handleQRCode st sessionId qrCode now).1).reconnectTimers = st.reconnectTimers
         else
            (handleQRCode st sessionId qrCode now).2 = [SMNotification.qrLoop sessionId]
              ∧ ((handleQRCode st sessionId qrCode now).1).qrLoopPaused.contains sessionId = true
              ∧ ((handleQRCode st sessionId qrCode now).1).sessions.contains sessionId = false
              ∧ alookup ((handleQRCode st sessionId qrCode now).1).reconnectTimers sessionId = none
              ∧ ∀ code : Option Nat,
                  alookup
                      ((handleDisconnect (handleQRCode st sessionId qrCode now).1 sessionId code).1).reconnectTimers
                      sessionId = none
                    ∧ ((handleDisconnect (handleQRCode st sessionId qrCode now).1 sessionId code).1).authState
                        = ((handleQRCode st sessionId qrCode now).1).authState) := by
  have hpauseDisc : ∀ (st' : SMState) (code : Option Nat),
      st'.qrLoopPaused.contains sessionId = true →
      ((handleDisconnect st' sessionId code).1).reconnectTimers = st'.reconnectTimers
        ∧ ((handleDisconnect st' sessionId code).1).authState = st'.authState := by
    intro st' code hp
    have hp' : sessionId ∈ st'.qrLoopPaused := by simpa using hp
    have hsr : shouldReconnectB st' sessionId code = false := by
      simp [shouldReconnectB, hp']
    simp [handleDisconnect, hsr, hp']
  by_cases hwin : QR_WINDOW_MS < now -
      (((alookup st.qrCodeState sessionId).getD { count := 0, firstAt := now } : QrState)).firstAt
  · have hn : qrNewCount st sessionId now = 1 := by
      simp [qrNewCount, qrPrev, hwin]
    have hf : qrNewFirstAt st sessionId now = now := by
      simp [qrNewFirstAt, qrPrev, hwin]
    have hle : qrNewCount st sessionId now ≤ MAX_QR := by
      rw [hn]; decide
    refine ⟨?_, ?_, ?_⟩
    · rw [hn, hf]
      simp [handleQRCode, hwin, MAX_QR, alookup_aset_self]
    · simp [handleQRCode, hwin, MAX_QR]
    · rw [if_pos hle, hn]
      simp [handleQRCode, hwin, MAX_QR]
  · have hn : qrNewCount st sessionId now
        = ((alookup st.qrCodeState sessionId).getD { count := 0, firstAt := now }).count + 1 := by
      simp [qrNewCount, qrPrev, hwin]
    have hf : qrNewFirstAt st sessionId now
        = ((alookup st.qrCodeState sessionId).getD { count := 0, firstAt := now }).firstAt := by
      simp [qrNewFirstAt, qrPrev, hwin]
    by_cases hthr : MAX_QR <
        ((alookup st.qrCodeState sessionId).getD { count := 0, firstAt := now }).count + 1
    · have hgt : ¬ qrNewCount st sessionId now ≤ MAX_QR := by omega
      refine ⟨?_, ?_, ?_⟩
      · rw [hn, hf]
        simp [handleQRCode, hwin, hthr, alookup_aset_self]
      · simp [handleQRCode, hwin, hthr]
      · rw [if_neg hgt]
        refine ⟨?_, ?_, ?_, ?_, ?_⟩
        · simp [handleQRCode, hwin, hthr]
        · simp [handleQRCode, hwin, hthr, contains_sadd_self, mem_sadd_self]
        · simp [handleQRCode, hwin, hthr, contains_filter_ne]
        · simp [handleQRCode, hwin, hthr, alookup_aerase_self]
        · intro code
          have hp : ((handleQRCode st sessionId qrCode now).1).qrLoopPaused.contains sessionId
              = true := by
            simp [handleQRCode, hwin, hthr, contains_sadd_self, mem_sadd_self]
          have htimers : ((handleQRCode st sessionId qrCode now).1).reconnectTimers
              = aerase st.reconnectTimers sessionId := by
            simp [handleQRCode, hwin, hthr]
          obtain ⟨h1, h2⟩ := hpauseDisc (handleQRCode st sessionId qrCode now).1 code hp
          refine ⟨?_, h2⟩
      /- the timers of the post-disconnect state are those of the paused state -/
          rw [h1, htimers]
          exact alookup_aerase_self _ _
    · have hle : qrNewCount st sessionId now ≤ MAX_QR := by omega
      refine ⟨?_, ?_, ?_⟩
      · rw [hn, hf]
        simp [handleQRCode, hwin, hthr, alookup_aset_self]
      · simp [handleQRCode, hwin, hthr]
      · rw [if_pos hle, hn]
        simp [handleQRCode, hwin, hthr]

/-! ## Reconnect backoff (claims C3 and C6) -/


theorem reconnectDelay_five : reconnectDelay 5 = 50625 / 2 := by
  norm_num [reconnectDelay, min_def]

/-- C3 counterexample: on the fifth reconnect-eligible close the code
schedules the retry after `min(60000, 5000 * 1.5^4) = 25312.5` ms, not the
25312 ms the claim enumerates. -/
theorem reconnect_attempt5_delay_not_25312 :
    alookup ((handleDisconnect smC3 "s" (some 428)).1).reconnectTimers "s"
        = some (50625 / 2 : ℚ)
      ∧ (50625 / 2 : ℚ) ≠ 25312 := by
  constructor
  · have hsr : shouldReconnectB smC3 "s" (some 428) = true := rfl
    have ha : (alookup smC3.reconnectState "s").getD 0 + 1 = 5 := rfl
    have h : (handleDisconnect smC3 "s" (some 428)).1.reconnectTimers
        = aset smC3.reconnectTimers "s" (reconnectDelay 5) := by
      simp only [handleDisconnect, hsr, if_true, ha]
      norm_num
    rw [h, alookup_aset_self, reconnectDelay_five]
  · norm_num

/-- C3 (amended): every reconnect-eligible close increments the attempt
counter; for the new attempt count n with n ≤ 10 a retry is scheduled after
exactly `min(60000, 5000 * 1.5^(n-1))` ms — so attempts 1..5 wait 5000,
7500, 11250, 16875, 25312.5 ms, attempts 6..7 wait 37968.75 and 56953.125
ms, and attempts 8..10 wait the 60000 ms cap — and once 10 attempts have
failed no further retry is scheduled, the session entry stays, and the
stored credentials are not wiped. -/
theorem reconnect_backoff_policy (st : SMState) (sessionId : String) (code : Option Nat)
    (hp : st.qrLoopPaused.contains sessionId = false)
    (hc : (match code with
           | some c => noReconnectCodes.contains c
           | none => false) = false) :
    alookup ((handleDisconnect st sessionId code).1).reconnectState sessionId
        = some ((alookup st.reconnectState sessionId).getD 0 + 1)
      ∧ ((alookup st.reconnectState sessionId).getD 0 + 1 ≤ 10 →
          alookup ((handleDisconnect st sessionId code).1).reconnectTimers sessionId
            = some (reconnectDelay ((alookup st.reconnectState sessionId).getD 0 + 1)))
      ∧ (10 < (alookup st.reconnectState sessionId).getD 0 + 1 →
          ((handleDisconnect st sessionId code).1).reconnectTimers = st.reconnectTimers
            ∧ ((handleDisconnect st sessionId code).1).sessions = st.sessions
            ∧ ((handleDisconnect st sessionId code).1).authState = st.authState)
      ∧ reconnectDelay 1 = 5000 ∧ reconnectDelay 2 = 7500 ∧ reconnectDelay 3 = 11250
      ∧ reconnectDelay 4 = 16875 ∧ reconnectDelay 5 = 50625 / 2
      ∧ reconnectDelay 6 = 151875 / 4 ∧ reconnectDelay 7 = 455625 / 8
      ∧ reconnectDelay 8 = 60000 ∧ reconnectDelay 9 = 60000 ∧ reconnectDelay 10 = 60000 := by
  have hsr : shouldReconnectB st sessionId code = true := by
    unfold shouldReconnectB
    rw [hp]
    simpa using hc
  by_cases hle : (alookup st.reconnectState sessionId).getD 0 + 1 ≤ 10
  · refine ⟨?_, fun _ => ?_, fun hgt => absurd hle (by omega), ?_, ?_, ?_, ?_, ?_, ?_, ?_, ?_, ?_, ?_⟩
    · simp [handleDisconnect, hsr, hle, alookup_aset_self]
    · simp [handleDisconnect, hsr, hle, alookup_aset_self]
    all_goals norm_num [reconnectDelay, min_def]
  · refine ⟨?_, fun h => absurd h hle, fun _ => ?_, ?_, ?_, ?_, ?_, ?_, ?_, ?_, ?_, ?_, ?_⟩
    · simp [handleDisconnect, hsr, hle, alookup_aset_self]
    · refine ⟨?_, ?_, ?_⟩ <;> simp [handleDisconnect, hsr, hle]
    all_goals norm_num [reconnectDelay, min_def]

/-- C3 witness: the amended policy applied to the concrete state `smC3`
with the ordinary close code 428: the fifth attempt is recorded. -/
theorem reconnect_backoff_policy_witness :
    smC3.qrLoopPaused.contains "s" = false
      ∧ alookup ((handleDisconnect smC3 "s" (some 428)).1).reconnectState "s" = some 5 :=
  ⟨rfl, by
    have h := (reconnect_backoff_policy smC3 "s" (some 428) rfl rfl).1
    simpa [smC3, alookup] using h⟩


/-- C6 counterexample: a close with the logout status code on a session
paused by QR loop leaves the stored credentials untouched — the claim's
"credentials are wiped regardless of any other supervisor state" fails (the
session is still removed from the in-memory map). -/
theorem logout_close_keeps_creds_when_paused :
    ((handleDisconnect smC6 "s" (some loggedOutCode)).1).authState = [("s", "creds")]
      ∧ ((handleDisconnect smC6 "s" (some loggedOutCode)).1).sessions = [] := by
  constructor <;> rfl

/-- C6 (amended): for every close whose status code is one of the
no-reconnect codes (loggedOut, 401, 403) the session is removed from the
in-memory session map and no reconnect timer is scheduled; the stored
credentials are wiped unless the session is paused by QR loop, in which
case they are preserved for a manual retry. -/
theorem logout_close_policy (st : SMState) (sessionId : String) (c : Nat)
    (hc : noReconnectCodes.contains c = true) :
    ((handleDisconnect st sessionId (some c)).1).sessions.contains sessionId = false
      ∧ ((handleDisconnect st sessionId (some c)).1).reconnectTimers = st.reconnectTimers
      ∧ (st.qrLoopPaused.contains sessionId = false →
          ((handleDisconnect st sessionId (some c)).1).authState
            = st.authState.filter (fun p => p.1 != sessionId))
      ∧ (st.qrLoopPaused.contains sessionId = true →
          ((handleDisconnect st sessionId (some c)).1).authState = st.authState) := by
  have hc' : c ∈ noReconnectCodes := by simpa using hc
  have hsr : shouldReconnectB st sessionId (some c) = false := by
    simp [shouldReconnectB, hc']
  by_cases hp : sessionId ∈ st.qrLoopPaused
  · refine ⟨?_, ?_, fun h => ?_, fun _ => ?_⟩
    · simp [handleDisconnect, hsr, hp, contains_filter_ne]
    · simp [handleDisconnect, hsr, hp]
    · exact absurd h (by simp [hp])
    · simp [handleDisconnect, hsr, hp]
  · refine ⟨?_, ?_, fun _ => ?_, fun h => ?_⟩
    · simp [handleDisconnect, hsr, hp, contains_filter_ne]
    · simp [handleDisconnect, hsr, hp]
    · simp [handleDisconnect, hsr, hp]
    · exact absurd h (by simp [hp])

/-- C6 witness: the amended policy applied to the concrete paused state
`smC6` with status code 401: credentials survive the close. -/
theorem logout_close_policy_witness :
    noReconnectCodes.contains 401 = true
      ∧ smC6.qrLoopPaused.contains "s" = true
      ∧ ((handleDisconnect smC6 "s" (some 401)).1).authState = smC6.authState :=
  ⟨rfl, rfl, (logout_close_policy smC6 "s" 401 rfl).2.2.2 rfl⟩

/-! ## Dashboard read-path error handling (claim C7) -/


/-- C7 counterexample: when the store read behind
`metricsQueries.getByDateRange` fails, `getDashboardMetrics` does not
return safe defaults — its catch handler rethrows, so the failure
propagates to the caller. -/
theorem dashboard_read_propagates_store_failure :
    getDashboardMetrics failingMetricsDb = Except.error "db down" := rfl

/-- C7 (amended): the helper read operations degrade to safe defaults on a
store failure — `getActiveContacts` and `getPendingContacts` return empty
lists, `calculateResponseTimes` returns the all-zero statistics, and
`getFirstResponseTimes` returns the empty sample list — but
`getDashboardMetrics` itself propagates a failure of either query it runs
directly (the daily-metrics range read and the per-day message count). -/
theorem read_path_failure_policy :
    (∀ e : String, getActiveContacts (Except.error e) = [])
      ∧ (∀ e : String, getPendingContacts (Except.error e) = [])
      ∧ (∀ (e : String) (fq : Except String (List FirstResponseRow)),
          calculateResponseTimesSafe (Except.error e) fq = zeroResponseTimes)
      ∧ (∀ e : String, getFirstResponseTimesSafe (Except.error e) = [])
      ∧ (∀ (db : ReadDb) (e : String),
          db.dailyMetricsInRange = Except.error e →
            getDashboardMetrics db = Except.error e)
      ∧ (∀ (db : ReadDb) (rows : List DailyMetricRow) (e : String),
          db.dailyMetricsInRange = Except.ok rows →
            db.countByDay = Except.error e →
              getDashboardMetrics db = Except.error e) := by
  refine ⟨fun e => rfl, fun e => rfl, fun e fq => rfl, fun e => rfl, ?_, ?_⟩
  · intro db e h
    unfold getDashboardMetrics
    rw [h]
    rfl
  · intro db rows e h1 h2
    unfold getDashboardMetrics
    rw [h1, h2]
    rfl


/-- C7 witness: the amended policy applied to the concrete environment
whose per-day count read fails. -/
theorem read_path_failure_policy_witness :
    failingCountDb.dailyMetricsInRange = Except.ok []
      ∧ failingCountDb.countByDay = Except.error "count failed"
      ∧ getDashboardMetrics failingCountDb = Except.error "count failed" :=
  ⟨rfl, rfl, read_path_failure_policy.2.2.2.2.2 failingCountDb [] "count failed" rfl rfl⟩

/-! ## Lemmas on the contact table operations -/

theorem contactKeyB_iff {i p : String} {c : Contact} :
    contactKeyB i p c = true ↔ c.instanceId = i ∧ c.phone = p := by
  simp [contactKeyB]

theorem applyContactUpdate_instanceId (name : Option String) (last : Option Int) (c : Contact) :
    (applyContactUpdate name last c).instanceId = c.instanceId := rfl

theorem applyContactUpdate_phone (name : Option String) (last : Option Int) (c : Contact) :
    (applyContactUpdate name last c).phone = c.phone := rfl

theorem applyContactUpdate_id (name : Option String) (last : Option Int) (c : Contact) :
    (applyContactUpdate name last c).id = c.id := rfl

theorem applyContactUpdate_returnCount (name : Option String) (last : Option Int) (c : Contact) :
    (applyContactUpdate name last c).returnCount = c.returnCount := rfl

theorem updContact_key (inst phone : String) (name : Option String) (last : Option Int)
    (i p : String) (c : Contact) :
    contactKeyB i p (updContact inst phone name last c) = contactKeyB i p c := by
  unfold updContact
  split <;> simp [contactKeyB, applyContactUpdate]

theorem updContact_instanceId (inst phone : String) (name : Option String) (last : Option Int)
    (c : Contact) : (updContact inst phone name last c).instanceId = c.instanceId := by
  unfold updContact
  split <;> rfl

theorem updContact_phone (inst phone : String) (name : Option String) (last : Option Int)
    (c : Contact) : (updContact inst phone name last c).phone = c.phone := by
  unfold updContact
  split <;> rfl

theorem updContact_id (inst phone : String) (name : Option String) (last : Option Int)
    (c : Contact) : (updContact inst phone name last c).id = c.id := by
  unfold updContact
  split <;> rfl

theorem bumpReturn_key (cid : Nat) (i p : String) (c : Contact) :
    contactKeyB i p (bumpReturn cid c) = contactKeyB i p c := by
  unfold bumpReturn
  split <;> simp [contactKeyB]

theorem bumpSent_key (cid : Nat) (i p : String) (c : Contact) :
    contactKeyB i p (bumpSent cid c) = contactKeyB i p c := by
  unfold bumpSent
  split <;> simp [contactKeyB]

theorem bumpReceived_key (cid : Nat) (i p : String) (c : Contact) :
    contactKeyB i p (bumpReceived cid c) = contactKeyB i p c := by
  unfold bumpReceived
  split <;> simp [contactKeyB]

theorem find?_map_of_keyFix {i p : String} (f : Contact → Contact)
    (hf : ∀ c, contactKeyB i p (f c) = contactKeyB i p c) (l : List Contact) :
    (l.map f).find? (contactKeyB i p) = (l.find? (contactKeyB i p)).map f := by
  rw [List.find?_map, show contactKeyB i p ∘ f = contactKeyB i p from funext hf]

theorem getContact_map (st : Store) (f : Contact → Contact) (i p : String)
    (hf : ∀ c, contactKeyB i p (f c) = contactKeyB i p c) :
    getContact { st with contacts := st.contacts.map f } i p = (getContact st i p).map f :=
  find?_map_of_keyFix f hf _

theorem getContact_incrementReturnCount (st : Store) (cid : Nat) (i p : String) :
    getContact (incrementReturnCount st cid) i p
      = (getContact st i p).map (bumpReturn cid) :=
  getContact_map st (bumpReturn cid) i p (bumpReturn_key cid i p)

theorem getContact_incrementSent (st : Store) (cid : Nat) (i p : String) :
    getContact (incrementSent st cid) i p = (getContact st i p).map (bumpSent cid) :=
  getContact_map st (bumpSent cid) i p (bumpSent_key cid i p)

theorem getContact_incrementReceived (st : Store) (cid : Nat) (i p : String) :
    getContact (incrementReceived st cid) i p = (getContact st i p).map (bumpReceived cid) :=
  getContact_map st (bumpReceived cid) i p (bumpReceived_key cid i p)

theorem getContact_messageCreate (st : Store) (row : MessageRow) (i p : String) :
    getContact (messageCreate st row) i p = getContact st i p := rfl

theorem getContact_upsertDaily (st : Store) (delta : DailyMetricRow) (i p : String) :
    getContact (upsertDaily st delta) i p = getContact st i p := rfl

theorem contactUpsert_found {st : Store} {inst phone : String} {c₀ : Contact}
    (name : Option String) (first last : Option Int)
    (h : getContact st inst phone = some c₀) :
    contactUpsert st inst phone name first last
      = (applyContactUpdate name last c₀,
          { st with contacts := st.contacts.map (updContact inst phone name last) }) := by
  unfold contactUpsert
  rw [show st.contacts.find? (contactKeyB inst phone) = some c₀ from h]

theorem contactUpsert_not_found {st : Store} {inst phone : String}
    (name : Option String) (first last : Option Int)
    (h : getContact st inst phone = none) :
    contactUpsert st inst phone name first last
      = (freshContact st inst phone name first last,
          { st with contacts := st.contacts ++ [freshContact st inst phone name first last],
                    nextContactId := st.nextContactId + 1 }) := by
  unfold contactUpsert
  rw [show st.contacts.find? (contactKeyB inst phone) = none from h]

theorem getContact_upsert_update (st : Store) (inst phone : String)
    (name : Option String) (last : Option Int) (i p : String) :
    getContact { st with contacts := st.contacts.map (updContact inst phone name last) } i p
      = (getContact st i p).map (updContact inst phone name last) :=
  getContact_map st (updContact inst phone name last) i p (updContact_key inst phone name last i p)

theorem freshContact_key (st : Store) (inst phone : String) (name : Option String)
    (first last : Option Int) :
    contactKeyB inst phone (freshContact st inst phone name first last) = true := by
  simp [contactKeyB, freshContact]

theorem getContact_append_self (st : Store) (inst phone : String) (c : Contact)
    (hkey : contactKeyB inst phone c = true)
    (h : getContact st inst phone = none) :
    getContact { st with contacts := st.contacts ++ [c] } inst phone = some c := by
  unfold getContact findByPhone at *
  rw [List.find?_append, h]
  simp [hkey]

theorem getContact_append_other (st : Store) (c : Contact) (i p : String)
    (hkey : contactKeyB i p c = false) :
    getContact { st with contacts := st.contacts ++ [c] } i p = getContact st i p := by
  unfold getContact findByPhone
  rw [List.find?_append]
  simp [hkey]

/-! ## Preservation of the store invariant -/

theorem storeInv_map (st : Store) (f : Contact → Contact)
    (hinst : ∀ c, (f c).instanceId = c.instanceId)
    (hph : ∀ c, (f c).phone = c.phone)
    (hid : ∀ c, (f c).id = c.id)
    (h : StoreInv st) :
    StoreInv { st with contacts := st.contacts.map f } := by
  obtain ⟨hK, hN, hF⟩ := h
  refine ⟨?_, ?_, ?_⟩
  · unfold KeysUnique at *
    rw [List.pairwise_map]
    exact hK.imp (fun hab => by simpa [hinst, hph] using hab)
  · have : (st.contacts.map f).map Contact.id = st.contacts.map Contact.id := by
      rw [List.map_map]
      exact List.map_congr_left (fun c _ => hid c)
    simpa [this] using hN
  · intro c' hc'
    rw [List.mem_map] at hc'
    obtain ⟨c, hc, rfl⟩ := hc'
    rw [hid]
    exact hF c hc

theorem storeInv_insert (st : Store) (inst phone : String) (name : Option String)
    (first last : Option Int)
    (hfind : getContact st inst phone = none)
    (h : StoreInv st) :
    StoreInv { st with
                 contacts := st.contacts ++ [freshContact st inst phone name first last],
                 nextContactId := st.nextContactId + 1 } := by
  obtain ⟨hK, hN, hF⟩ := h
  have habs : ∀ c ∈ st.contacts, ¬(c.instanceId = inst ∧ c.phone = phone) := by
    intro c hc hcp
    exact List.find?_eq_none.mp hfind c hc (contactKeyB_iff.mpr hcp)
  refine ⟨?_, ?_, ?_⟩
  · unfold KeysUnique
    rw [List.pairwise_append]
    refine ⟨hK, by simp, ?_⟩
    intro a ha b hb
    rw [List.mem_singleton] at hb
    subst hb
    intro hab
    exact habs a ha (by simpa [freshContact] using hab)
  · rw [List.map_append, List.nodup_append]
    refine ⟨hN, by simp, ?_⟩
    intro x hx hx2
    rw [List.mem_map] at hx
    obtain ⟨c, hc, rfl⟩ := hx
    have hlt := hF c hc
    have : c.id = st.nextContactId := by simpa [freshContact] using hx2
    omega
  · intro c hc
    rw [List.mem_append] at hc
    rcases hc with hc | hc
    · exact Nat.lt_succ_of_lt (hF c hc)
    · rw [List.mem_singleton] at hc
      subst hc
      simp [freshContact]

theorem storeInv_contactUpsert (st : Store) (inst phone : String) (name : Option String)
    (first last : Option Int) (h : StoreInv st) :
    StoreInv (contactUpsert st inst phone name first last).2 := by
  cases hfind : getContact st inst phone with
  | some c₀ =>
      rw [contactUpsert_found name first last hfind]
      exact storeInv_map st _ (updContact_instanceId inst phone name last)
        (updContact_phone inst phone name last) (updContact_id inst phone name last) h
  | none =>
      rw [contactUpsert_not_found name first last hfind]
      exact storeInv_insert st inst phone name first last hfind h

theorem storeInv_incrementReturnCount (st : Store) (cid : Nat) (h : StoreInv st) :
    StoreInv (incrementReturnCount st cid) :=
  storeInv_map st (bumpReturn cid)
    (fun c => by unfold bumpReturn; split <;> rfl)
    (fun c => by unfold bumpReturn; split <;> rfl)
    (fun c => by unfold bumpReturn; split <;> rfl) h

theorem storeInv_incrementSent (st : Store) (cid : Nat) (h : StoreInv st) :
    StoreInv (incrementSent st cid) :=
  storeInv_map st (bumpSent cid)
    (fun c => by unfold bumpSent; split <;> rfl)
    (fun c => by unfold bumpSent; split <;> rfl)
    (fun c => by unfold bumpSent; split <;> rfl) h

theorem storeInv_incrementReceived (st : Store) (cid : Nat) (h : StoreInv st) :
    StoreInv (incrementReceived st cid) :=
  storeInv_map st (bumpReceived cid)
    (fun c => by unfold bumpReceived; split <;> rfl)
    (fun c => by unfold bumpReceived; split <;> rfl)
    (fun c => by unfold bumpReceived; split <;> rfl) h

theorem storeInv_messageCreate (st : Store) (row : MessageRow) (h : StoreInv st) :
    StoreInv (messageCreate st row) := h

theorem storeInv_upsertDaily (st : Store) (delta : DailyMetricRow) (h : StoreInv st) :
    StoreInv (upsertDaily st delta) := h

theorem storeInv_processMessage (st : Store) (inst phone : String) (d : MessageData)
    (sysNow : Int) (h : StoreInv st) :
    StoreInv (processMessage st inst phone d sysNow).2 := by
  unfold processMessage
  cases hfind : findByPhone st inst phone with
  | none =>
      simp only [hfind]
      apply storeInv_upsertDaily
      cases hd : d.fromMe
      · simp only [hd, Bool.false_eq_true, if_false]
        apply storeInv_incrementReceived
        apply storeInv_messageCreate
        exact storeInv_contactUpsert st inst phone _ _ _ h
      · simp only [hd, if_true]
        apply storeInv_incrementSent
        apply storeInv_messageCreate
        exact storeInv_contactUpsert st inst phone _ _ _ h
  | some c₀ =>
      simp only [hfind]
      apply storeInv_upsertDaily
      have h1 : StoreInv (if (!d.fromMe &&
          (match c₀.lastMessageAt with
           | some l => returnGapB l d.timestamp
           | none => false)) = true then incrementReturnCount st c₀.id else st) := by
        split
        · exact storeInv_incrementReturnCount st c₀.id h
        · exact h
      cases hd : d.fromMe
      · simp only [hd] at h1
        simp only [hd, Bool.false_eq_true, if_false]
        apply storeInv_incrementReceived
        apply storeInv_messageCreate
        exact storeInv_contactUpsert _ inst phone _ _ _ h1
      · simp only [hd] at h1
        simp only [hd, if_true]
        apply storeInv_incrementSent
        apply storeInv_messageCreate
        exact storeInv_contactUpsert _ inst phone _ _ _ h1

theorem storeInv_empty : StoreInv emptyStore := by
  refine ⟨?_, ?_, ?_⟩ <;> simp [emptyStore, KeysUnique]

theorem storeInv_ingestAll (msgs : List IngestInput) (st : Store) (h : StoreInv st) :
    StoreInv (ingestAll msgs st) := by
  induction msgs generalizing st with
  | nil => exact h
  | cons m rest ih =>
      exact ih _ (storeInv_processMessage st m.instanceId m.phone m.data m.sysNow h)

/-! ## Branch equations for `processMessage` -/

theorem processMessage_none_eq (st : Store) (inst phone : String) (d : MessageData)
    (sysNow : Int) (hfind : getContact st inst phone = none) :
    processMessage st inst phone d sysNow
      = (let fresh := freshContact st inst phone (if d.fromMe then none else d.contactName)
           (some d.timestamp) (some d.timestamp)
         let st₁ : Store := { st with
                              contacts := st.contacts ++ [fresh],
                              nextContactId := st.nextContactId + 1 }
         let st₂ := messageCreate st₁
           { instanceId := inst, contactId := fresh.id,
             messageId := some (effectiveMessageId d.messageId sysNow),
             fromMe := d.fromMe, body := d.body, mediaType := d.mediaType,
             timestamp := d.timestamp }
         let st₃ := if d.fromMe then incrementSent st₂ fresh.id else incrementReceived st₂ fresh.id
         ({ contact := fresh, isNewContact := true, isReturningContact := false },
          upsertDaily st₃
            { instanceId := inst, date := dateStrOf d.timestamp, newContacts := 1,
              totalMessagesReceived := if d.fromMe then 0 else 1,
              totalMessagesSent := if d.fromMe then 1 else 0, returningContacts := 0 })) := by
  have hfind' : findByPhone st inst phone = none := hfind
  simp only [processMessage, hfind',
    contactUpsert_not_found (if d.fromMe then none else d.contactName)
      (some d.timestamp) (some d.timestamp) hfind]
  rfl

theorem processMessage_some_eq (st : Store) (inst phone : String) (d : MessageData)
    (sysNow : Int) (c₀ : Contact) (hfind : getContact st inst phone = some c₀) :
    processMessage st inst phone d sysNow
      = (let isRet := !d.fromMe &&
           (match c₀.lastMessageAt with
            | some l => returnGapB l d.timestamp
            | none => false)
         let stR := if isRet then incrementReturnCount st c₀.id else st
         let stUp := (contactUpsert stR inst phone (if d.fromMe then none else d.contactName)
           none (some d.timestamp)).2
         let c := (findByPhone stUp inst phone).getD c₀
         let st₂ := messageCreate stUp
           { instanceId := inst, contactId := c.id,
             messageId := some (effectiveMessageId d.messageId sysNow),
             fromMe := d.fromMe, body := d.body, mediaType := d.mediaType,
             timestamp := d.timestamp }
         let st₃ := if d.fromMe then incrementSent st₂ c.id else incrementReceived st₂ c.id
         ({ contact := c, isNewContact := false, isReturningContact := isRet },
          upsertDaily st₃
            { instanceId := inst, date := dateStrOf d.timestamp, newContacts := 0,
              totalMessagesReceived := if d.fromMe then 0 else 1,
              totalMessagesSent := if d.fromMe then 1 else 0,
              returningContacts := if isRet then 1 else 0 })) := by
  have hfind' : findByPhone st inst phone = some c₀ := hfind
  simp only [processMessage, hfind']
  rfl

/-! ## Claim C8: (instance, address) uniquely identifies a Contact -/

/-- C8: ingesting any sequence of messages never creates two Contact rows
for one (instance, phone) key: any two rows of the resulting contact table
that agree on instance and phone are the same row. -/
theorem contact_key_uniqueness (msgs : List IngestInput) (c c' : Contact)
    (hc : c ∈ (ingestAll msgs emptyStore).contacts)
    (hc' : c' ∈ (ingestAll msgs emptyStore).contacts)
    (hinst : c.instanceId = c'.instanceId) (hph : c.phone = c'.phone) : c = c' := by
  have hK : KeysUnique (ingestAll msgs emptyStore) :=
    (storeInv_ingestAll msgs emptyStore storeInv_empty).1
  have hsym : Symmetric (fun a b : Contact =>
      ¬(a.instanceId = b.instanceId ∧ a.phone = b.phone)) := by
    intro a b hab hba
    exact hab ⟨hba.1.symm, hba.2.symm⟩
  by_contra hne
  exact List.Pairwise.forall hsym hK hc hc' hne ⟨hinst, hph⟩

/-- C8 witness: after ingesting one inbound message, the single created row
is found, and the uniqueness theorem applies to it. -/
theorem contact_key_uniqueness_witness :
    (⟨1, "i", "p", some "Ana", some 0, some 0, 1, 0, 0⟩ : Contact)
        ∈ (ingestAll
            [⟨"i", "p", ⟨false, "hi", 0, some "Ana", "text", some "m1"⟩, 0⟩]
            emptyStore).contacts
      ∧ (⟨1, "i", "p", some "Ana", some 0, some 0, 1, 0, 0⟩ : Contact)
          = (⟨1, "i", "p", some "Ana", some 0, some 0, 1, 0, 0⟩ : Contact) := by
  have hm : (⟨1, "i", "p", some "Ana", some 0, some 0, 1, 0, 0⟩ : Contact)
      ∈ (ingestAll
          [⟨"i", "p", ⟨false, "hi", 0, some "Ana", "text", some "m1"⟩, 0⟩]
          emptyStore).contacts := by decide
  exact ⟨hm, contact_key_uniqueness _ _ _ hm hm rfl rfl⟩

/-! ## Claim C9: outbound traffic never writes the display name -/

theorem bumpReturn_name (cid : Nat) (c : Contact) : (bumpReturn cid c).name = c.name := by
  unfold bumpReturn
  split <;> rfl

theorem bumpSent_name (cid : Nat) (c : Contact) : (bumpSent cid c).name = c.name := by
  unfold bumpSent
  split <;> rfl

theorem bumpReceived_name (cid : Nat) (c : Contact) : (bumpReceived cid c).name = c.name := by
  unfold bumpReceived
  split <;> rfl

theorem updContact_name_none (inst phone : String) (last : Option Int) (c : Contact) :
    (updContact inst phone none last c).name = c.name := by
  unfold updContact
  split <;> rfl

theorem nameOf_map (st : Store) (f : Contact → Contact) (i p : String)
    (hf : ∀ c, contactKeyB i p (f c) = contactKeyB i p c)
    (hname : ∀ c, (f c).name = c.name) :
    nameOf { st with contacts := st.contacts.map f } i p = nameOf st i p := by
  unfold nameOf
  rw [getContact_map st f i p hf]
  cases getContact st i p with
  | none => rfl
  | some c => simp [hname]

theorem nameOf_upsertDaily (st : Store) (delta : DailyMetricRow) (i p : String) :
    nameOf (upsertDaily st delta) i p = nameOf st i p := rfl

theorem nameOf_messageCreate (st : Store) (row : MessageRow) (i p : String) :
    nameOf (messageCreate st row) i p = nameOf st i p := rfl

theorem nameOf_incrementSent (st : Store) (cid : Nat) (i p : String) :
    nameOf (incrementSent st cid) i p = nameOf st i p :=
  nameOf_map st (bumpSent cid) i p (bumpSent_key cid i p) (bumpSent_name cid)

theorem nameOf_incrementReceived (st : Store) (cid : Nat) (i p : String) :
    nameOf (incrementReceived st cid) i p = nameOf st i p :=
  nameOf_map st (bumpReceived cid) i p (bumpReceived_key cid i p) (bumpReceived_name cid)

theorem nameOf_upsert_update_none (st : Store) (inst phone : String) (last : Option Int)
    (i p : String) :
    nameOf { st with contacts := st.contacts.map (updContact inst phone none last) } i p
      = nameOf st i p :=
  nameOf_map st (updContact inst phone none last) i p
    (updContact_key inst phone none last i p) (updContact_name_none inst phone last)

/-- C9: ingesting an outbound message leaves every stored display name
unchanged — the name field is written only from inbound sender-supplied
names; creating a contact from an outbound message stores no name (a NULL
name column and an absent row both read as `none`). -/
theorem outbound_never_writes_name (st : Store) (inst phone : String) (d : MessageData)
    (sysNow : Int) (i p : String) (h : d.fromMe = true) :
    nameOf (processMessage st inst phone d sysNow).2 i p = nameOf st i p := by
  cases hfind : getContact st inst phone with
  | none =>
      rw [processMessage_none_eq st inst phone d sysNow hfind]
      simp only [h, if_true, ite_true]
      rw [nameOf_upsertDaily, nameOf_incrementSent, nameOf_messageCreate]
      by_cases hkey : contactKeyB i p
          (freshContact st inst phone none (some d.timestamp) (some d.timestamp)) = true
      · obtain ⟨h1, h2⟩ := contactKeyB_iff.mp hkey
        have h1' : inst = i := by simpa [freshContact] using h1
        have h2' : phone = p := by simpa [freshContact] using h2
        subst h1'
        subst h2'
        unfold nameOf
        rw [show getContact
            { st with
                contacts := st.contacts ++
                  [freshContact st inst phone none (some d.timestamp) (some d.timestamp)],
                nextContactId := st.nextContactId + 1 } inst phone
            = some (freshContact st inst phone none (some d.timestamp) (some d.timestamp)) from
          getContact_append_self _ inst phone _ hkey hfind]
        rw [hfind]
        rfl
      · unfold nameOf
        rw [show getContact
            { st with
                contacts := st.contacts ++
                  [freshContact st inst phone none (some d.timestamp) (some d.timestamp)],
                nextContactId := st.nextContactId + 1 } i p
            = getContact st i p from
          getContact_append_other _ _ i p (by simpa using hkey)]
  | some c₀ =>
      rw [processMessage_some_eq st inst phone d sysNow c₀ hfind]
      simp only [h, Bool.not_true, Bool.false_and, Bool.false_eq_true, if_false, ite_false,
        if_true, ite_true]
      have hfound : getContact st inst phone = some c₀ := hfind
      rw [contactUpsert_found none none (some d.timestamp) hfound]
      rw [nameOf_upsertDaily, nameOf_incrementSent, nameOf_messageCreate]
      exact nameOf_upsert_update_none st inst phone (some d.timestamp) i p

/-- C9 witness: ingesting a concrete outbound message into the empty store
leaves the (absent) name at its key unchanged. -/
theorem outbound_never_writes_name_witness :
    (⟨true, "yo", 0, some "Me", "text", some "m2"⟩ : MessageData).fromMe = true
      ∧ nameOf (processMessage emptyStore "i" "p"
            ⟨true, "yo", 0, some "Me", "text", some "m2"⟩ 0).2 "i" "p"
          = nameOf emptyStore "i" "p" :=
  ⟨rfl, outbound_never_writes_name emptyStore "i" "p" _ 0 "i" "p" rfl⟩

/-! ## Claim C10: stored message ids are never null -/

theorem messages_contactUpsert (st : Store) (inst phone : String) (name : Option String)
    (first last : Option Int) :
    ((contactUpsert st inst phone name first last).2).messages = st.messages := by
  unfold contactUpsert
  split <;> rfl

theorem messages_incrementReturnCount (st : Store) (cid : Nat) :
    (incrementReturnCount st cid).messages = st.messages := rfl

theorem messages_direction_ite (P : Prop) [Decidable P] (X : Store) (cid : Nat) :
    (if P then incrementSent X cid else incrementReceived X cid).messages = X.messages := by
  split <;> rfl

theorem messages_return_ite (P : Prop) [Decidable P] (st : Store) (cid : Nat) :
    (if P then incrementReturnCount st cid else st).messages = st.messages := by
  split <;> rfl

/-- C10: ingestion appends exactly one Message row, and its network
message id column is always non-null: it is `some (effectiveMessageId ...)`
which, when the event carries no messageId, is the generated placeholder
`msg_<now>`; consequently every stored row has a non-null message id. -/
theorem message_id_never_null :
    (∀ (st : Store) (inst phone : String) (d : MessageData) (sysNow : Int),
        ((processMessage st inst phone d sysNow).2).messages
          = st.messages
            ++ [{ instanceId := inst,
                  contactId := (processMessage st inst phone d sysNow).1.contact.id,
                  messageId := some (effectiveMessageId d.messageId sysNow),
                  fromMe := d.fromMe, body := d.body, mediaType := d.mediaType,
                  timestamp := d.timestamp }])
      ∧ (∀ sysNow : Int, effectiveMessageId none sysNow = "msg_" ++ toString sysNow)
      ∧ (∀ (msgs : List IngestInput) (r : MessageRow),
          r ∈ (ingestAll msgs emptyStore).messages → r.messageId ≠ none) := by
  have hstep : ∀ (st : Store) (inst phone : String) (d : MessageData) (sysNow : Int),
      ((processMessage st inst phone d sysNow).2).messages
        = st.messages
          ++ [{ instanceId := inst,
                contactId := (processMessage st inst phone d sysNow).1.contact.id,
                messageId := some (effectiveMessageId d.messageId sysNow),
                fromMe := d.fromMe, body := d.body, mediaType := d.mediaType,
                timestamp := d.timestamp }] := by
    intro st inst phone d sysNow
    cases hfind : getContact st inst phone with
    | none =>
        rw [processMessage_none_eq st inst phone d sysNow hfind]
        cases hd : d.fromMe <;> simp only [hd] <;> rfl
    | some c₀ =>
        rw [processMessage_some_eq st inst phone d sysNow c₀ hfind]
        cases hd : d.fromMe <;>
          simp [hd, upsertDaily, messageCreate, incrementSent, incrementReceived,
            messages_contactUpsert, messages_return_ite]
  refine ⟨hstep, fun sysNow => rfl, ?_⟩
  have aux : ∀ (msgs : List IngestInput) (st : Store),
      (∀ r ∈ st.messages, r.messageId ≠ none) →
      ∀ r ∈ (ingestAll msgs st).messages, r.messageId ≠ none := by
    intro msgs
    induction msgs with
    | nil => exact fun st h r hr => h r hr
    | cons m rest ih =>
        intro st h r hr
        refine ih _ ?_ r hr
        intro r' hr'
        rw [hstep st m.instanceId m.phone m.data m.sysNow] at hr'
        rcases List.mem_append.mp hr' with hold | hnew
        · exact h r' hold
        · rw [List.mem_singleton] at hnew
          subst hnew
          simp
  exact fun msgs r hr => aux msgs emptyStore (by simp [emptyStore]) r hr

/-- C10 witness: ingesting a concrete message that carries no messageId
stores the placeholder id, which is non-null. -/
theorem message_id_never_null_witness :
    (⟨"i", 1, some "msg_0", false, "hi", "text", 0⟩ : MessageRow)
        ∈ (ingestAll [⟨"i", "p", ⟨false, "hi", 0, none, "text", none⟩, 0⟩] emptyStore).messages
      ∧ (⟨"i", 1, some "msg_0", false, "hi", "text", 0⟩ : MessageRow).messageId ≠ none := by
  have hm : (⟨"i", 1, some "msg_0", false, "hi", "text", 0⟩ : MessageRow)
      ∈ (ingestAll [⟨"i", "p", ⟨false, "hi", 0, none, "text", none⟩, 0⟩] emptyStore).messages := by
    decide
  exact ⟨hm, message_id_never_null.2.2 _ _ hm⟩

/-! ## Claim C1: return-count policy -/

theorem bumpSent_returnCount (cid : Nat) (c : Contact) :
    (bumpSent cid c).returnCount = c.returnCount := by
  unfold bumpSent
  split <;> rfl

theorem bumpReceived_returnCount (cid : Nat) (c : Contact) :
    (bumpReceived cid c).returnCount = c.returnCount := by
  unfold bumpReceived
  split <;> rfl

theorem updContact_returnCount (inst phone : String) (name : Option String) (last : Option Int)
    (c : Contact) : (updContact inst phone name last c).returnCount = c.returnCount := by
  unfold updContact
  split <;> rfl

theorem returnCountOf_map (st : Store) (f : Contact → Contact) (i p : String)
    (hf : ∀ c, contactKeyB i p (f c) = contactKeyB i p c)
    (hrc : ∀ c, (f c).returnCount = c.returnCount) :
    returnCountOf { st with contacts := st.contacts.map f } i p = returnCountOf st i p := by
  unfold returnCountOf
  rw [getContact_map st f i p hf]
  cases getContact st i p with
  | none => rfl
  | some c => simp [hrc]

theorem returnCountOf_upsertDaily (st : Store) (delta : DailyMetricRow) (i p : String) :
    returnCountOf (upsertDaily st delta) i p = returnCountOf st i p := rfl

theorem returnCountOf_messageCreate (st : Store) (row : MessageRow) (i p : String) :
    returnCountOf (messageCreate st row) i p = returnCountOf st i p := rfl

theorem returnCountOf_incrementSent (st : Store) (cid : Nat) (i p : String) :
    returnCountOf (incrementSent st cid) i p = returnCountOf st i p :=
  returnCountOf_map st (bumpSent cid) i p (bumpSent_key cid i p) (bumpSent_returnCount cid)

theorem returnCountOf_incrementReceived (st : Store) (cid : Nat) (i p : String) :
    returnCountOf (incrementReceived st cid) i p = returnCountOf st i p :=
  returnCountOf_map st (bumpReceived cid) i p (bumpReceived_key cid i p)
    (bumpReceived_returnCount cid)

theorem find?_append_single_key (l : List Contact) (c : Contact) (i p : String)
    (hkey : contactKeyB i p c = true) (h : l.find? (contactKeyB i p) = none) :
    (l ++ [c]).find? (contactKeyB i p) = some c := by
  rw [List.find?_append, h]
  simp [hkey]

theorem find?_append_single_other (l : List Contact) (c : Contact) (i p : String)
    (hkey : contactKeyB i p c = false) :
    (l ++ [c]).find? (contactKeyB i p) = l.find? (contactKeyB i p) := by
  rw [List.find?_append]
  cases hf : l.find? (contactKeyB i p) <;> simp [hkey]

theorem returnCountOf_contactUpsert (st : Store) (inst phone : String) (name : Option String)
    (first last : Option Int) (i p : String) :
    returnCountOf ((contactUpsert st inst phone name first last).2) i p
      = returnCountOf st i p := by
  cases hfind : getContact st inst phone with
  | some c₀ =>
      rw [contactUpsert_found name first last hfind]
      exact returnCountOf_map st _ i p (updContact_key inst phone name last i p)
        (updContact_returnCount inst phone name last)
  | none =>
      rw [contactUpsert_not_found name first last hfind]
      unfold returnCountOf getContact findByPhone
      by_cases hkey : contactKeyB i p (freshContact st inst phone name first last) = true
      · have hip : inst = i ∧ phone = p := by
          have h2 := contactKeyB_iff.mp hkey
          exact ⟨by simpa [freshContact] using h2.1, by simpa [freshContact] using h2.2⟩
        obtain ⟨rfl, rfl⟩ := hip
        rw [find?_append_single_key _ _ inst phone hkey hfind]
        rw [show st.contacts.find? (contactKeyB inst phone) = none from hfind]
        rfl
      · rw [find?_append_single_other _ _ i p (by simpa using hkey)]

theorem returnCountOf_direction_ite (P : Prop) [Decidable P] (X : Store) (cid : Nat)
    (i p : String) :
    returnCountOf (if P then incrementSent X cid else incrementReceived X cid) i p
      = returnCountOf X i p := by
  split
  · exact returnCountOf_incrementSent X cid i p
  · exact returnCountOf_incrementReceived X cid i p

theorem returnCount_step (st : Store) (inst phone : String) (d : MessageData) (sysNow : Int)
    (hInv : StoreInv st) (i p : String) :
    returnCountOf (processMessage st inst phone d sysNow).2 i p
      = returnCountOf st i p
        + (if i = inst ∧ p = phone ∧ returnIncrementCondition st inst phone d = true
           then 1 else 0) := by
  cases hfind : getContact st inst phone with
  | none =>
      have hcond : returnIncrementCondition st inst phone d = false := by
        unfold returnIncrementCondition getContact at *
        rw [hfind]
      rw [processMessage_none_eq st inst phone d sysNow hfind]
      simp only [hcond, Bool.false_eq_true, and_false, if_false, Nat.add_zero]
      rw [returnCountOf_upsertDaily, returnCountOf_direction_ite, returnCountOf_messageCreate]
      unfold returnCountOf getContact findByPhone
      by_cases hkey : contactKeyB i p (freshContact st inst phone
          (if d.fromMe then none else d.contactName) (some d.timestamp) (some d.timestamp)) = true
      · have hip : inst = i ∧ phone = p := by
          have h2 := contactKeyB_iff.mp hkey
          exact ⟨by simpa [freshContact] using h2.1, by simpa [freshContact] using h2.2⟩
        obtain ⟨rfl, rfl⟩ := hip
        rw [find?_append_single_key _ _ inst phone hkey hfind]
        rw [show st.contacts.find? (contactKeyB inst phone) = none from hfind]
        rfl
      · rw [find?_append_single_other _ _ i p (by simpa using hkey)]
  | some c₀ =>
      have hcond : returnIncrementCondition st inst phone d
          = (!d.fromMe &&
              (match c₀.lastMessageAt with
               | some l => returnGapB l d.timestamp
               | none => false)) := by
        unfold returnIncrementCondition getContact at *
        rw [hfind]
      rw [processMessage_some_eq st inst phone d sysNow c₀ hfind]
      rw [returnCountOf_upsertDaily, returnCountOf_direction_ite, returnCountOf_messageCreate,
        returnCountOf_contactUpsert]
      cases hRet : (!d.fromMe &&
          (match c₀.lastMessageAt with
           | some l => returnGapB l d.timestamp
           | none => false)) with
      | false =>
          rw [hRet] at hcond
          simp only [hRet, Bool.false_eq_true, if_false, hcond, and_false, Nat.add_zero]
      | true =>
          rw [hRet] at hcond
          simp only [hRet, if_true]
          by_cases hkey : i = inst ∧ p = phone
          · obtain ⟨rfl, rfl⟩ := hkey
            unfold returnCountOf
            rw [getContact_incrementReturnCount, hfind]
            simp [bumpReturn, hcond]
          · have hite : (if i = inst ∧ p = phone
                ∧ returnIncrementCondition st inst phone d = true then 1 else 0) = 0 := by
              simp only [ite_eq_right_iff]
              intro hcontr
              exact absurd ⟨hcontr.1, hcontr.2.1⟩ hkey
            rw [hite, Nat.add_zero]
            unfold returnCountOf
            rw [getContact_incrementReturnCount]
            cases hgc : getContact st i p with
            | none => rfl
            | some c₁ =>
                have hc₁mem : c₁ ∈ st.contacts := List.mem_of_find?_eq_some hgc
                have hc₀mem : c₀ ∈ st.contacts := List.mem_of_find?_eq_some hfind
                have hne : c₁ ≠ c₀ := by
                  intro hEq
                  subst hEq
                  have h1 := contactKeyB_iff.mp (List.find?_some hgc)
                  have h0 := contactKeyB_iff.mp (List.find?_some hfind)
                  exact hkey ⟨h0.1 ▸ h1.1.symm ▸ rfl, h0.2 ▸ h1.2.symm ▸ rfl⟩
                have hid : c₁.id ≠ c₀.id := fun hEq =>
                  hne (List.inj_on_of_nodup_map hInv.2.1 hc₁mem hc₀mem hEq)
                simp [bumpReturn, hid]

/-- C1: along any ingestion sequence a contact's return-count never
decreases, and one more ingest increments it exactly when the message is
inbound on an already-known contact whose stored last-seen timestamp is at
least 24 hours older (never for outbound messages, never for the message
that creates the contact), leaving every other contact's count unchanged. -/
theorem return_count_policy (msgs : List IngestInput) (inst phone : String) (d : MessageData)
    (sysNow : Int) (i p : String) :
    returnCountOf (ingestAll msgs emptyStore) i p
        ≤ returnCountOf (processMessage (ingestAll msgs emptyStore) inst phone d sysNow).2 i p
      ∧ returnCountOf (processMessage (ingestAll msgs emptyStore) inst phone d sysNow).2 i p
          = returnCountOf (ingestAll msgs emptyStore) i p
            + (if i = inst ∧ p = phone
                  ∧ returnIncrementCondition (ingestAll msgs emptyStore) inst phone d = true
               then 1 else 0)
      ∧ (∀ l t : Int, returnGapB l t = true ↔ l + 86400000 ≤ t) := by
  have hInv := storeInv_ingestAll msgs emptyStore storeInv_empty
  have hstep := returnCount_step (ingestAll msgs emptyStore) inst phone d sysNow hInv i p
  refine ⟨by omega, hstep, ?_⟩
  intro l t
  unfold returnGapB hoursSinceLastMsg
  rw [decide_eq_true_iff]
  rw [le_div_iff₀ (by norm_num)]
  rw [show ((24 : ℚ) * (1000 * 60 * 60)) = ((86400000 : Int) : ℚ) by norm_num]
  rw [Int.cast_le]
  omega

/-! ## Claim C5: Daily Metric rollups are additive -/

theorem DailyCounts.add_assoc (a b c : DailyCounts) : (a.add b).add c = a.add (b.add c) := by
  cases a
  cases b
  cases c
  simp [DailyCounts.add, Nat.add_assoc]

theorem DailyCounts.zero_add (a : DailyCounts) : zeroDailyCounts.add a = a := by
  cases a
  simp [DailyCounts.add, zeroDailyCounts]

theorem DailyCounts.add_zero (a : DailyCounts) : a.add zeroDailyCounts = a := by
  cases a
  simp [DailyCounts.add, zeroDailyCounts]

theorem dailyKeyB_iff {i : String} {dt : Int} {r : DailyMetricRow} :
    dailyKeyB i dt r = true ↔ r.instanceId = i ∧ r.date = dt := by
  simp [dailyKeyB]

theorem addDaily_key (r delta : DailyMetricRow) (i : String) (dt : Int) :
    dailyKeyB i dt (addDaily r delta) = dailyKeyB i dt r := by
  simp [dailyKeyB, addDaily]

theorem countsOfRow_addDaily (r delta : DailyMetricRow) :
    countsOfRow (addDaily r delta) = (countsOfRow r).add (countsOfRow delta) := rfl

theorem find?_map_of_predFix {α : Type} (q : α → Bool) (f : α → α)
    (hf : ∀ x, q (f x) = q x) (l : List α) :
    (l.map f).find? q = (l.find? q).map f := by
  rw [List.find?_map, show q ∘ f = q from funext hf]

theorem getDailyCounts_upsertDaily (st : Store) (delta : DailyMetricRow) (i : String)
    (dt : Int) :
    getDailyCounts (upsertDaily st delta) i dt
      = if delta.instanceId = i ∧ delta.date = dt
        then (getDailyCounts st i dt).add (countsOfRow delta)
        else getDailyCounts st i dt := by
  unfold getDailyCounts upsertDaily upsertDailyRows
  by_cases hkey : delta.instanceId = i ∧ delta.date = dt
  · rw [if_pos hkey]
    obtain ⟨hk1, hk2⟩ := hkey
    subst hk1
    subst hk2
    by_cases hany : st.dailyMetrics.any (dailyKeyB delta.instanceId delta.date) = true
    · rw [if_pos hany]
      have hf := find?_map_of_predFix (dailyKeyB delta.instanceId delta.date)
        (fun r => if dailyKeyB delta.instanceId delta.date r then addDaily r delta else r)
        (fun r => by
          by_cases h : dailyKeyB delta.instanceId delta.date r = true <;>
            simp [h, addDaily_key]) st.dailyMetrics
      rw [hf]
      cases hfindr : st.dailyMetrics.find? (dailyKeyB delta.instanceId delta.date) with
      | none =>
          obtain ⟨r, hrmem, hr⟩ := List.any_eq_true.mp hany
          exact absurd (List.find?_eq_none.mp hfindr r hrmem) (by simp [hr])
      | some r₀ =>
          have hr₀ := List.find?_some hfindr
          simp [hr₀, countsOfRow_addDaily]
    · rw [if_neg hany]
      have hnone : st.dailyMetrics.find? (dailyKeyB delta.instanceId delta.date) = none := by
        rw [List.find?_eq_none]
        intro x hx hpx
        exact hany (List.any_eq_true.mpr ⟨x, hx, hpx⟩)
      rw [List.find?_append, hnone]
      have hself : dailyKeyB delta.instanceId delta.date delta = true := by
        simp [dailyKeyB]
      simp [hself, DailyCounts.zero_add]
  · rw [if_neg hkey]
    by_cases hany : st.dailyMetrics.any (dailyKeyB delta.instanceId delta.date) = true
    · rw [if_pos hany]
      have hf := find?_map_of_predFix (dailyKeyB i dt)
        (fun r => if dailyKeyB delta.instanceId delta.date r then addDaily r delta else r)
        (fun r => by
          by_cases h : dailyKeyB delta.instanceId delta.date r = true <;>
            simp [h, addDaily_key]) st.dailyMetrics
      rw [hf]
      cases hfindr : st.dailyMetrics.find? (dailyKeyB i dt) with
      | none => rfl
      | some r₀ =>
          have hr₀ := dailyKeyB_iff.mp (List.find?_some hfindr)
          have hnotdelta : dailyKeyB delta.instanceId delta.date r₀ = false := by
            rw [Bool.eq_false_iff]
            intro hcontr
            have h2 := dailyKeyB_iff.mp hcontr
            exact hkey ⟨h2.1 ▸ hr₀.1, h2.2 ▸ hr₀.2⟩
          simp [hnotdelta]
    · rw [if_neg hany]
      have hdeltakey : dailyKeyB i dt delta = false := by
        rw [Bool.eq_false_iff]
        intro hcontr
        have h2 := dailyKeyB_iff.mp hcontr
        exact hkey ⟨h2.1, h2.2⟩
      rw [List.find?_append]
      cases hfindr : st.dailyMetrics.find? (dailyKeyB i dt) <;>
        simp [hdeltakey]

theorem getDailyCounts_direction_ite (P : Prop) [Decidable P] (X : Store) (cid : Nat)
    (i : String) (dt : Int) :
    getDailyCounts (if P then incrementSent X cid else incrementReceived X cid) i dt
      = getDailyCounts X i dt := by
  split <;> rfl

theorem getDailyCounts_return_ite (P : Prop) [Decidable P] (X : Store) (cid : Nat)
    (i : String) (dt : Int) :
    getDailyCounts (if P then incrementReturnCount X cid else X) i dt
      = getDailyCounts X i dt := by
  split <;> rfl

theorem getDailyCounts_contactUpsert (st : Store) (inst phone : String) (name : Option String)
    (first last : Option Int) (i : String) (dt : Int) :
    getDailyCounts ((contactUpsert st inst phone name first last).2) i dt
      = getDailyCounts st i dt := by
  unfold contactUpsert
  split <;> rfl

theorem getDailyCounts_processMessage (st : Store) (m : IngestInput) (i : String) (dt : Int) :
    getDailyCounts (processMessage st m.instanceId m.phone m.data m.sysNow).2 i dt
      = if m.instanceId = i ∧ dateStrOf m.data.timestamp = dt
        then (getDailyCounts st i dt).add (deltaOf st m)
        else getDailyCounts st i dt := by
  unfold deltaOf
  cases hfind : getContact st m.instanceId m.phone with
  | none =>
      rw [processMessage_none_eq st m.instanceId m.phone m.data m.sysNow hfind]
      rw [getDailyCounts_upsertDaily]
      rw [getDailyCounts_direction_ite]
      rfl
  | some c₀ =>
      rw [processMessage_some_eq st m.instanceId m.phone m.data m.sysNow c₀ hfind]
      rw [getDailyCounts_upsertDaily]
      rw [getDailyCounts_direction_ite]
      rw [show ∀ (X : Store) (row : MessageRow), getDailyCounts (messageCreate X row) i dt
          = getDailyCounts X i dt from fun X row => rfl]
      rw [getDailyCounts_contactUpsert, getDailyCounts_return_ite]
      rfl

/-- C5: every ingestion merges exactly its additive per-message delta into
the Daily Metric row keyed by the message's instance and calendar date,
never overwriting stored counters; consequently, for any sequence of
ingests, the stored totals of each (instance, date) equal the initial
totals plus the sum of the per-message deltas booked under that key. -/
theorem daily_metrics_additive (msgs : List IngestInput) (st : Store) (i : String) (dt : Int) :
    (∀ m : IngestInput,
        getDailyCounts (processMessage st m.instanceId m.phone m.data m.sysNow).2 i dt
          = if m.instanceId = i ∧ dateStrOf m.data.timestamp = dt
            then (getDailyCounts st i dt).add (deltaOf st m)
            else getDailyCounts st i dt)
      ∧ getDailyCounts (ingestAll msgs st) i dt
          = (getDailyCounts st i dt).add (sumDeltasFor i dt (deltaTrace msgs st)) := by
  refine ⟨fun m => getDailyCounts_processMessage st m i dt, ?_⟩
  induction msgs generalizing st with
  | nil =>
      rw [show ingestAll [] st = st from rfl,
        show deltaTrace [] st = [] from rfl,
        show sumDeltasFor i dt [] = zeroDailyCounts from rfl,
        DailyCounts.add_zero]
  | cons m rest ih =>
      rw [show ingestAll (m :: rest) st
          = ingestAll rest (processMessage st m.instanceId m.phone m.data m.sysNow).2 from rfl]
      rw [ih (processMessage st m.instanceId m.phone m.data m.sysNow).2]
      rw [show deltaTrace (m :: rest) st
          = (m.instanceId, dateStrOf m.data.timestamp, deltaOf st m)
              :: deltaTrace rest (processMessage st m.instanceId m.phone m.data m.sysNow).2
        from rfl]
      rw [getDailyCounts_processMessage st m i dt]
      have hcons : ∀ (e : String × Int × DailyCounts) (tr : List (String × Int × DailyCounts)),
          sumDeltasFor i dt (e :: tr)
            = if e.1 = i ∧ e.2.1 = dt then (e.2.2).add (sumDeltasFor i dt tr)
              else sumDeltasFor i dt tr := fun e tr => rfl
      by_cases hkey : m.instanceId = i ∧ dateStrOf m.data.timestamp = dt
      · rw [if_pos hkey, hcons, if_pos hkey, DailyCounts.add_assoc]
      · rw [if_neg hkey, hcons, if_neg hkey]

/-! ## Claim C4: response-time pairing and reporting -/

theorem listMin_ne_none {α : Type} [Min α] (x : α) (xs : List α) :
    listMin (x :: xs) ≠ none := by
  unfold listMin
  cases listMin xs <;> simp

theorem listMin_eq_some_iff {α : Type} [LinearOrder α] (l : List α) :
    ∀ r : α, listMin l = some r ↔ r ∈ l ∧ ∀ x ∈ l, r ≤ x := by
  induction l with
  | nil => intro r; simp [listMin]
  | cons x xs ih =>
      intro r
      cases h : listMin xs with
      | none =>
          cases xs with
          | nil =>
              constructor
              · intro hh
                have hxr : x = r := by simpa [listMin] using hh
                subst hxr
                simp
              · rintro ⟨hmem, hbnd⟩
                have hrx : r = x := by simpa using hmem
                subst hrx
                rfl
          | cons y ys => exact absurd h (listMin_ne_none y ys)
      | some y =>
          obtain ⟨hymem, hybnd⟩ := (ih y).mp h
          have hcons : listMin (x :: xs) = some (min x y) := by
            unfold listMin
            rw [h]
          rw [hcons]
          constructor
          · intro hr
            have hr' : min x y = r := by injection hr
            subst hr'
            constructor
            · rcases le_total x y with hxy | hyx
              · rw [min_eq_left hxy]
                exact List.mem_cons_self x xs
              · rw [min_eq_right hyx]
                exact List.mem_cons_of_mem x hymem
            · intro z hz
              rcases List.mem_cons.mp hz with hzx | hz'
              · rw [hzx]
                exact min_le_left x y
              · exact le_trans (min_le_right x y) (hybnd z hz')
          · rintro ⟨hmem, hbnd⟩
            have h1 : r ≤ min x y :=
              le_min (hbnd x (List.mem_cons_self x xs)) (hbnd y (List.mem_cons_of_mem x hymem))
            have h2 : min x y ≤ r := by
              rcases List.mem_cons.mp hmem with hrx | hmem'
              · rw [hrx]
                exact min_le_left _ _
              · exact le_trans (min_le_right x y) (hybnd r hmem')
            rw [le_antisymm h2 h1]

theorem respondedAt_iff (msgs : List MessageRow) (cid : Nat) (ts r : Int) :
    respondedAt msgs cid ts = some r ↔ IsEarliestReplyAt msgs cid ts r := by
  unfold respondedAt IsEarliestReplyAt
  rw [listMin_eq_some_iff]
  simp only [List.mem_map, List.mem_filter, Bool.and_eq_true, beq_iff_eq, decide_eq_true_eq]
  constructor
  · rintro ⟨⟨m, ⟨hm, ⟨hcid, hfm⟩, hts⟩, hr⟩, hbnd⟩
    refine ⟨⟨m, hm, hcid, hfm, hts, hr⟩, ?_⟩
    intro m2 hm2 hcid2 hfm2 hts2
    exact hbnd m2.timestamp ⟨m2, ⟨hm2, ⟨hcid2, hfm2⟩, hts2⟩, rfl⟩
  · rintro ⟨⟨m, hm, hcid, hfm, hts, hr⟩, hbnd⟩
    refine ⟨⟨m, ⟨hm, ⟨hcid, hfm⟩, hts⟩, hr⟩, ?_⟩
    rintro x ⟨m2, ⟨hm2, ⟨hcid2, hfm2⟩, hts2⟩, hx⟩
    exact hx ▸ hbnd m2 hm2 hcid2 hfm2 hts2

/-- C4: each response-time sample pairs an inbound in-range message with
the earliest strictly-later outbound message of the same contact and
equals their exact second-difference; the result reports the sample count,
and (JavaScript-rounded) minimum, maximum and average of the samples; with
zero samples the all-zero default result is returned instead of failing. -/
theorem response_time_semantics :
    (∀ (msgs : List MessageRow) (cid : Nat) (ts r : Int),
        respondedAt msgs cid ts = some r ↔ IsEarliestReplyAt msgs cid ts r)
      ∧ (∀ (msgs : List MessageRow) (inst : String) (s e : Int) (q : ℚ),
          q ∈ samplesOfRows (responseQueryRows msgs inst s e) →
            ∃ m ∈ msgs, ∃ r : Int, m.instanceId = inst ∧ m.fromMe = false
              ∧ s ≤ dateStrOf m.timestamp ∧ dateStrOf m.timestamp ≤ e
              ∧ IsEarliestReplyAt msgs m.contactId m.timestamp r
              ∧ q = ((r - m.timestamp : Int) : ℚ) / 1000)
      ∧ (∀ (contacts : List Contact) (msgs : List MessageRow) (inst : String) (s e : Int),
          (calculateResponseTimes contacts msgs inst s e).totalResponses
            = (samplesOfRows (responseQueryRows msgs inst s e)).length)
      ∧ (∀ (contacts : List Contact) (msgs : List MessageRow) (inst : String) (s e : Int),
          samplesOfRows (responseQueryRows msgs inst s e) = [] →
            calculateResponseTimes contacts msgs inst s e = zeroResponseTimes)
      ∧ (∀ (contacts : List Contact) (msgs : List MessageRow) (inst : String) (s e : Int),
          samplesOfRows (responseQueryRows msgs inst s e) ≠ [] →
            (calculateResponseTimes contacts msgs inst s e).minResponseTimeSeconds
                = jsRound ((listMin (samplesOfRows (responseQueryRows msgs inst s e))).getD 0)
              ∧ (calculateResponseTimes contacts msgs inst s e).maxResponseTimeSeconds
                = jsRound ((listMax (samplesOfRows (responseQueryRows msgs inst s e))).getD 0)
              ∧ (calculateResponseTimes contacts msgs inst s e).avgResponseTimeSeconds
                = jsRound ((samplesOfRows (responseQueryRows msgs inst s e)).sum
                    / ((samplesOfRows (responseQueryRows msgs inst s e)).length : ℚ))) := by
  refine ⟨respondedAt_iff, ?_, ?_, ?_, ?_⟩
  · intro msgs inst s e q hq
    unfold samplesOfRows responseQueryRows inboundInRange at hq
    simp only [List.mem_filterMap, List.mem_map, List.mem_filter, Bool.and_eq_true,
      beq_iff_eq, decide_eq_true_eq, Bool.not_eq_true', Option.map_eq_some'] at hq
    obtain ⟨row, ⟨m, ⟨⟨hm, hconds⟩, hrow⟩⟩, r, hresp, hsample⟩ := hq
    obtain ⟨⟨⟨hinst, hfm⟩, hs⟩, he⟩ := hconds
    subst hrow
    exact ⟨m, hm, r, hinst, hfm, hs, he, (respondedAt_iff msgs m.contactId m.timestamp r).mp hresp,
      hsample.symm⟩
  · intro contacts msgs inst s e
    by_cases hlen : (samplesOfRows (responseQueryRows msgs inst s e)).length = 0
    · simp [calculateResponseTimes, calculateResponseTimesWith, hlen, zeroResponseTimes]
    · simp [calculateResponseTimes, calculateResponseTimesWith, hlen]
  · intro contacts msgs inst s e h
    simp [calculateResponseTimes, calculateResponseTimesWith, h]
  · intro contacts msgs inst s e h
    have hlen : ¬(samplesOfRows (responseQueryRows msgs inst s e)).length = 0 := by
      intro hlen
      exact h (List.length_eq_zero.mp hlen)
    refine ⟨?_, ?_, ?_⟩ <;>
      simp [calculateResponseTimes, calculateResponseTimesWith, hlen]

/-- C4 witness: on the concrete two-message table the single sample is 30
seconds and it is the exact second-difference of the earliest-reply pair. -/
theorem response_time_semantics_witness :
    (30 : ℚ) ∈ samplesOfRows (responseQueryRows msgsC4 "i" 0 0)
      ∧ ∃ m ∈ msgsC4, ∃ r : Int, m.instanceId = "i" ∧ m.fromMe = false
          ∧ 0 ≤ dateStrOf m.timestamp ∧ dateStrOf m.timestamp ≤ 0
          ∧ IsEarliestReplyAt msgsC4 m.contactId m.timestamp r
          ∧ (30 : ℚ) = ((r - m.timestamp : Int) : ℚ) / 1000 := by
  have hd0 : dateStrOf 0 = 0 := rfl
  have hmem : (30 : ℚ) ∈ samplesOfRows (responseQueryRows msgsC4 "i" 0 0) := by
    have hrows : responseQueryRows msgsC4 "i" 0 0
        = [{ contactId := 1, receivedAt := 0, respondedAt := some 30000 }] := by
      unfold responseQueryRows inboundInRange respondedAt msgsC4
      simp [listMin, hd0]
    rw [hrows]
    unfold samplesOfRows
    simp only [List.filterMap_cons, List.filterMap_nil, Option.map_some]
    norm_num
  exact ⟨hmem, response_time_semantics.2.1 msgsC4 "i" 0 0 30 hmem⟩

end RelatorioOregon
